import Mathlib

/-!
# gifly: a verification development

A shallow embedding of `gifly.go` (a gin-based reverse proxy in front of the
Giphy API) together with the parts of the Go standard library whose
documented behaviour decides what the handlers send: `net/url`
(`Values`, `QueryEscape`, `QueryUnescape`, `ParseQuery`, `URL.String`),
`strconv.Itoa`, `strconv.ParseBool` and `os.LookupEnv`.

Go strings are byte sequences, so they are lists of bytes here.
The network (`http.Get`), the gin parameter binder (`c.ShouldBind`) and the
JSON decoder are inputs of the handlers: their results are arguments.
A handler is a function from the `gin.Context` it is given to the context it
leaves and the outbound calls it issued. The gin response writer (`status`,
`size`, `WriteHeader`, `WriteHeaderNow`, `Write`) and the two ways the router
runs a handler (a matched route, and `serveError` for the NoRoute handler) are
modelled after gin.
-/

namespace Gifly

/-! ## Go strings -/

/-- One byte of a Go string. -/
abbrev Byte := Fin 256

/-- A Go `string`: an immutable sequence of bytes. -/
abbrev GoString := List Byte

/-- The byte of an ASCII character literal. -/
def ch (c : Char) : Byte := Fin.ofNat c.toNat

/-- The Go string of an ASCII string literal. -/
def lit (s : String) : GoString := s.toList.map ch

/-! ## net/url: escaping -/

/-- The `encoding` modes of `net/url`. -/
inductive encoding where
  | encodePath
  | encodePathSegment
  | encodeHost
  | encodeZone
  | encodeUserPassword
  | encodeQueryComponent
  | encodeFragment
  deriving DecidableEq, Repr

/-- The errors `net/url` reports while unescaping. -/
inductive URLError where
  | EscapeError (s : GoString)
  | InvalidHostError (s : GoString)
  | Semicolon
  deriving DecidableEq, Repr

deriving instance DecidableEq for Except

/-- Membership of a byte in a set of ASCII characters (a Go `switch c { case ... }`). -/
def oneOf (c : Byte) (cs : String) : Bool := (lit cs).contains c

/-- Go `url.shouldEscape`: whether byte `c` must be percent-encoded in `mode`. -/
def shouldEscape (c : Byte) (mode : encoding) : Bool :=
  if (ch 'a' ≤ c ∧ c ≤ ch 'z') ∨ (ch 'A' ≤ c ∧ c ≤ ch 'Z') ∨ (ch '0' ≤ c ∧ c ≤ ch '9') then
    false
  else if (mode = .encodeHost ∨ mode = .encodeZone) ∧
      (oneOf c "!$&()*+,;=:[]<>" ∨ c = 34 ∨ c = 39) then
    false
  else if oneOf c "-_.~" then
    false
  else if oneOf c "$&+,/:;=?@" ∧ mode = .encodePath then
    c = ch '?'
  else if oneOf c "$&+,/:;=?@" ∧ mode = .encodePathSegment then
    c = ch '/' ∨ c = ch ';' ∨ c = ch ',' ∨ c = ch '?'
  else if oneOf c "$&+,/:;=?@" ∧ mode = .encodeUserPassword then
    c = ch '@' ∨ c = ch '/' ∨ c = ch '?' ∨ c = ch ':'
  else if oneOf c "$&+,/:;=?@" ∧ mode = .encodeQueryComponent then
    true
  else if oneOf c "$&+,/:;=?@" ∧ mode = .encodeFragment then
    false
  else if mode = .encodeFragment ∧ oneOf c "!()*" then
    false
  else
    true

/-- Go `upperhex[i]`, the table `"0123456789ABCDEF"`. -/
def upperhex (i : Nat) : Byte := (lit "0123456789ABCDEF").getD i 0

/-- Go `url.ishex`. -/
def ishex (c : Byte) : Bool :=
  (ch '0' ≤ c ∧ c ≤ ch '9') ∨ (ch 'a' ≤ c ∧ c ≤ ch 'f') ∨ (ch 'A' ≤ c ∧ c ≤ ch 'F')

/-- Go `url.unhex` (byte arithmetic wraps modulo 256). -/
def unhex (c : Byte) : Byte :=
  if ch '0' ≤ c ∧ c ≤ ch '9' then c - ch '0'
  else if ch 'a' ≤ c ∧ c ≤ ch 'f' then c - ch 'a' + 10
  else if ch 'A' ≤ c ∧ c ≤ ch 'F' then c - ch 'A' + 10
  else 0

/-- The bytes `url.escape` emits for one input byte. -/
def escapeByte (c : Byte) (mode : encoding) : GoString :=
  if c = ch ' ' ∧ mode = .encodeQueryComponent then [ch '+']
  else if shouldEscape c mode then [ch '%', upperhex (c.val >>> 4), upperhex (c.val &&& 15)]
  else [c]

/-- Go `url.escape`: the output loop; the two early returns of the Go code
(nothing to escape, only spaces to turn into `+`) yield the same string. -/
def escape : GoString → encoding → GoString
  | [], _ => []
  | c :: s, mode => escapeByte c mode ++ escape s mode

/-- Go `url.QueryEscape`. -/
def QueryEscape (s : GoString) : GoString := escape s .encodeQueryComponent

/-- First loop of Go `url.unescape`: the first malformed escape (or invalid
host byte), if any. -/
def unescapeCheck (mode : encoding) : GoString → Option URLError
  | [] => none
  | c :: rest =>
    if c = ch '%' then
      match rest with
      | a :: b :: r =>
        if !ishex a || !ishex b then
          some (.EscapeError [c, a, b])
        else if mode = .encodeHost ∧ unhex a < 8 ∧ [c, a, b] ≠ lit "%25" then
          some (.EscapeError [c, a, b])
        else if mode = .encodeZone ∧ [c, a, b] ≠ lit "%25" ∧
            (Fin.ofNat (((unhex a).val <<< 4) ||| (unhex b).val) : Byte) ≠ ch ' ' ∧
            shouldEscape (Fin.ofNat (((unhex a).val <<< 4) ||| (unhex b).val)) .encodeHost then
          some (.EscapeError [c, a, b])
        else
          unescapeCheck mode r
      | _ => some (.EscapeError (c :: rest))
    else if c = ch '+' then
      unescapeCheck mode rest
    else if (mode = .encodeHost ∨ mode = .encodeZone) ∧ c.val < 128 ∧
        shouldEscape c .encodeHost then
      some (.InvalidHostError [c])
    else
      unescapeCheck mode rest

/-- Second loop of Go `url.unescape`: decode a string that passed the check. -/
def unescapeDecode (mode : encoding) : GoString → GoString
  | [] => []
  | c :: rest =>
    if c = ch '%' then
      match rest with
      | a :: b :: r =>
        (Fin.ofNat (((unhex a).val <<< 4) ||| (unhex b).val) : Byte) :: unescapeDecode mode r
      | _ => []
    else if c = ch '+' then
      (if mode = .encodeQueryComponent then ch ' ' else ch '+') :: unescapeDecode mode rest
    else
      c :: unescapeDecode mode rest

/-- Go `url.unescape`. -/
def unescape (s : GoString) (mode : encoding) : Except URLError GoString :=
  match unescapeCheck mode s with
  | some e => .error e
  | none => .ok (unescapeDecode mode s)

/-- Go `url.QueryUnescape`. -/
def QueryUnescape (s : GoString) : Except URLError GoString :=
  unescape s .encodeQueryComponent

/-! ## net/url: Values -/

/-- Go `url.Values`, a `map[string][]string`: the entries in insertion order,
each key at most once. -/
abbrev Values := List (GoString × List GoString)

/-- The map lookup `v[key]` (the nil slice when the key is absent). -/
def Values.lookup (v : Values) (key : GoString) : List GoString :=
  match v with
  | [] => []
  | (k, vs) :: rest => if k = key then vs else Values.lookup rest key

/-- The map store `v[key] = vs`. -/
def Values.store (v : Values) (key : GoString) (vs : List GoString) : Values :=
  match v with
  | [] => [(key, vs)]
  | (k, old) :: rest => if k = key then (k, vs) :: rest else (k, old) :: Values.store rest key vs

/-- Go `Values.Add`: `v[key] = append(v[key], value)`. -/
def Values.Add (v : Values) (key value : GoString) : Values :=
  v.store key (v.lookup key ++ [value])

/-- Go `Values.Get`: the first value of the key, or `""`. -/
def Values.Get (v : Values) (key : GoString) : GoString :=
  match v.lookup key with
  | [] => []
  | x :: _ => x

/-- Go string comparison `a < b`: bytewise lexicographic. -/
def strLess : GoString → GoString → Bool
  | [], [] => false
  | [], _ :: _ => true
  | _ :: _, [] => false
  | a :: as, b :: bs => if a < b then true else if b < a then false else strLess as bs

/-- Insertion of a key into a sorted key list (for `slices.Sort(keys)`). -/
def insertKey (k : GoString) : List GoString → List GoString
  | [] => [k]
  | x :: xs => if strLess x k then x :: insertKey k xs else k :: x :: xs

/-- Go `slices.Sort(keys)` on the keys of a map. -/
def sortKeys : List GoString → List GoString
  | [] => []
  | k :: ks => insertKey k (sortKeys ks)

/-- The `key=value` pairs `Values.Encode` writes for one key, both escaped. -/
def encodePairs (key : GoString) (vs : List GoString) : List GoString :=
  vs.map (fun v => QueryEscape key ++ ch '=' :: QueryEscape v)

/-- Go `strings.Join`-like concatenation with a one-byte separator. -/
def joinWith (sep : Byte) : List GoString → GoString
  | [] => []
  | [x] => x
  | x :: y :: rest => x ++ sep :: joinWith sep (y :: rest)

/-- Go `Values.Encode`: `key=value` pairs, sorted by key, joined by `&`. -/
def Values.Encode (v : Values) : GoString :=
  joinWith (ch '&')
    (((sortKeys (v.map Prod.fst)).map (fun k => encodePairs k (v.lookup k))).flatten)

/-- Go `strings.Cut(s, sep)` for a one-byte separator: the text before the
first `sep`, the text after it, and whether `sep` occurs. -/
def cut (sep : Byte) : GoString → GoString × GoString × Bool
  | [] => ([], [], false)
  | c :: s =>
    if c = sep then ([], s, true)
    else ((c :: (cut sep s).1), (cut sep s).2.1, (cut sep s).2.2)

/-- The `&`-separated pieces of a query, in order: what the loop
`key, query, _ = strings.Cut(query, "&")` of Go `parseQuery` visits. -/
def pieces : GoString → List GoString
  | [] => []
  | c :: s =>
    if c = ch '&' then [] :: pieces s
    else match pieces s with
      | [] => [[c]]
      | p :: ps => (c :: p) :: ps

/-- One iteration of the loop of Go `parseQuery` on the piece `key`. -/
def parsePiece (m : Values × Option URLError) (key : GoString) : Values × Option URLError :=
  if key.contains (ch ';') then
    (m.1, some .Semicolon)
  else if key = [] then
    m
  else
    match QueryUnescape (cut (ch '=') key).1 with
    | .error e1 => (m.1, if m.2 = none then some e1 else m.2)
    | .ok k =>
      match QueryUnescape (cut (ch '=') key).2.1 with
      | .error e1 => (m.1, if m.2 = none then some e1 else m.2)
      | .ok value => (m.1.Add k value, m.2)

/-- Go `url.ParseQuery`: the values parsed, and the first error if any. -/
def ParseQuery (query : GoString) : Values × Option URLError :=
  (pieces query).foldl parsePiece ([], none)

/-! ## net/url: URL -/

/-- Go `url.Userinfo`. -/
structure Userinfo where
  username : GoString
  password : GoString
  passwordSet : Bool
  deriving DecidableEq, Repr

/-- Go `url.URL`. -/
structure URL where
  Scheme : GoString := []
  Opaque : GoString := []
  User : Option Userinfo := none
  Host : GoString := []
  Path : GoString := []
  RawPath : GoString := []
  OmitHost : Bool := false
  ForceQuery : Bool := false
  RawQuery : GoString := []
  Fragment : GoString := []
  RawFragment : GoString := []
  deriving DecidableEq, Repr

/-- Go `url.validEncoded`. -/
def validEncoded (s : GoString) (mode : encoding) : Bool :=
  s.all (fun c => oneOf c "!$&()*+,;=:@[]%" || c = 39 || !shouldEscape c mode)

/-- Go `(*Userinfo).String`. -/
def Userinfo.String (u : Userinfo) : GoString :=
  escape u.username .encodeUserPassword ++
    (if u.passwordSet then ch ':' :: escape u.password .encodeUserPassword else [])

/-- Go `(*URL).EscapedPath`. -/
def URL.EscapedPath (u : URL) : GoString :=
  if u.RawPath ≠ [] ∧ validEncoded u.RawPath .encodePath ∧
      unescape u.RawPath .encodePath = .ok u.Path then
    u.RawPath
  else if u.Path = lit "*" then
    lit "*"
  else
    escape u.Path .encodePath

/-- Go `(*URL).EscapedFragment`. -/
def URL.EscapedFragment (u : URL) : GoString :=
  if u.RawFragment ≠ [] ∧ validEncoded u.RawFragment .encodeFragment ∧
      unescape u.RawFragment .encodeFragment = .ok u.Fragment then
    u.RawFragment
  else
    escape u.Fragment .encodeFragment

/-- The `scheme:` prefix `URL.String` writes first. -/
def URL.schemePart (u : URL) : GoString :=
  if u.Scheme ≠ [] then u.Scheme ++ [ch ':'] else []

/-- The `//userinfo@host` text `URL.String` writes when there is no opaque part. -/
def URL.authorityPart (u : URL) : GoString :=
  if u.Scheme ≠ [] ∨ u.Host ≠ [] ∨ u.User ≠ none then
    if u.OmitHost ∧ u.Host = [] ∧ u.User = none then
      []
    else
      (if u.Host ≠ [] ∨ u.Path ≠ [] ∨ u.User ≠ none then lit "//" else []) ++
      (match u.User with
        | some ui => ui.String ++ [ch '@']
        | none => []) ++
      (if u.Host ≠ [] then escape u.Host .encodeHost else [])
  else
    []

/-- The path text `URL.String` writes after the buffer `buf`: a `/` is put in
front of a relative path that follows a host, and `./` in front of a path whose
first segment has a colon when nothing was written before it. -/
def URL.pathPart (u : URL) (buf : GoString) : GoString :=
  (if u.EscapedPath ≠ [] ∧ u.EscapedPath.head? ≠ some (ch '/') ∧ u.Host ≠ [] then
      [ch '/']
    else if buf = [] ∧ (cut (ch '/') u.EscapedPath).1.contains (ch ':') then
      lit "./"
    else
      []) ++
  u.EscapedPath

/-- The `?query` text of `URL.String`. -/
def URL.queryPart (u : URL) : GoString :=
  if u.ForceQuery ∨ u.RawQuery ≠ [] then ch '?' :: u.RawQuery else []

/-- The `#fragment` text of `URL.String`. -/
def URL.fragmentPart (u : URL) : GoString :=
  if u.Fragment ≠ [] then ch '#' :: u.EscapedFragment else []

/-- Go `(*URL).String`: `scheme:opaque?query#fragment` when the opaque part is
non-empty, `scheme://userinfo@host/path?query#fragment` otherwise. -/
def URL.String (u : URL) : GoString :=
  (if u.Opaque ≠ [] then
      u.schemePart ++ u.Opaque
    else
      u.schemePart ++ u.authorityPart ++ u.pathPart (u.schemePart ++ u.authorityPart)) ++
  u.queryPart ++ u.fragmentPart

/-! ## strconv -/

/-- Go `strconv.Itoa`: the decimal text of an integer, `-` first when negative. -/
def Itoa (i : Int) : GoString :=
  match i with
  | Int.ofNat n => (Nat.toDigits 10 n).map ch
  | Int.negSucc n => ch '-' :: (Nat.toDigits 10 (n + 1)).map ch

/-- Go `strconv.ParseBool`: `none` is the syntax error. -/
def ParseBool (str : GoString) : Option Bool :=
  if str ∈ [lit "1", lit "t", lit "T", lit "true", lit "TRUE", lit "True"] then some true
  else if str ∈ [lit "0", lit "f", lit "F", lit "false", lit "FALSE", lit "False"] then some false
  else none

/-! ## gifly.go: data -/

/-- GifObject - the core of the response from Giphy. -/
structure GifObject where
  Type_ : GoString
  ID : GoString
  URL : GoString
  Slug : GoString
  BitlyGifURL : GoString
  BitlyURL : GoString
  EmbedURL : GoString
  Username : GoString
  Source : GoString
  Title : GoString
  Rating : GoString
  ContentURL : GoString
  SourceTld : GoString
  SourcePostURL : GoString
  IsSticker : Int
  ImportDatetime : GoString
  TrendingDatetime : GoString
  deriving DecidableEq, Repr

/-- Pagination - page counters for paginated results. -/
structure Pagination where
  TotalCount : Int
  Count : Int
  Offset : Int
  deriving DecidableEq, Repr

/-- Meta - metadata attached by Giphy to the result. -/
structure Meta where
  Status : Int
  Msg : GoString
  ResponseID : GoString
  deriving DecidableEq, Repr

/-- GiphySearchResponse - what comes back from Giphy. -/
structure GiphySearchResponse where
  Data : List GifObject
  Pagination : Pagination
  Meta : Meta
  deriving DecidableEq, Repr

/-- The constant `giphyendpoint`. -/
def giphyendpoint : GoString := lit "https://api.giphy.com/v1/gifs/search"

/-- The constant `giphyhost`. -/
def giphyhost : GoString := lit "api.giphy.com"

/-- The package-level variables `defaultapikey`, `passthruapikey` and `port`. -/
structure Globals where
  defaultapikey : GoString := []
  passthruapikey : Bool := false
  port : Int := 0
  deriving DecidableEq, Repr

/-- SearchRequest - a minimal request to search. A field the binder does not
fill keeps its Go zero value (`""`, `0`). `Limit` is a Go `int`; the handler
only compares it with 0 and prints it, so no arithmetic on it can overflow and
it is an integer without bound here. -/
structure SearchRequest where
  Query : GoString := []
  APIKey : GoString := []
  Limit : Int := 0
  deriving DecidableEq, Repr

/-! ## net/http and gin: the pieces the handlers touch -/

/-- Go `http.Header`, a `map[string][]string`: each name at most once. Ranging
over it visits the entries in the order of `entries`, which is arbitrary. -/
abbrev Header := AList (fun _ : GoString => List GoString)

/-- The `http.Response` of a successful `http.Get`: status code, headers and
the body as the sequence of chunks its reader yields. -/
structure Response where
  StatusCode : Int
  Header : Header
  Body : List GoString
  deriving DecidableEq

/-- gin `noWritten`: the `size` of a writer whose header is not written yet. -/
def noWritten : Int := -1

/-- gin `defaultStatus`. -/
def defaultStatus : Int := 200

/-- The caller-facing gin `responseWriter`: the header map of the underlying
`http.ResponseWriter`, gin's `status` and `size`, and the body bytes sent so
far. Once the header is written gin no longer changes `status`, so the status
a finished response holds is the one that was sent. -/
structure ResponseWriter where
  header : Header
  status : Int
  size : Int
  body : GoString
  deriving DecidableEq

/-- The inbound `http.Request`: method and parsed URL. -/
structure Request where
  Method : GoString
  URL : URL
  deriving DecidableEq

/-- The `gin.Context` of one inbound request. -/
structure Context where
  Request : Request
  Writer : ResponseWriter
  deriving DecidableEq

/-- One outbound HTTP call: method and URL string. -/
structure Call where
  Method : GoString
  URL : GoString
  deriving DecidableEq, Repr

/-- What lies outside the program: the gin binder (`none` is a binding error),
the network behind `http.Get` (`none` is a returned error) and the JSON decoder. -/
structure Outside where
  ShouldBind : Request → Option SearchRequest
  Get : GoString → Option Response
  Decode : GoString → Except GoString GiphySearchResponse

/-- gin `(*responseWriter).Written`: `w.size != noWritten`. -/
def ResponseWriter.Written (w : ResponseWriter) : Bool := w.size ≠ noWritten

/-- gin `(*responseWriter).WriteHeader`: a code that is not positive, or equal
to the current status, changes nothing; so does any code once the header is
written; otherwise the code becomes the status. -/
def ResponseWriter.WriteHeader (w : ResponseWriter) (code : Int) : ResponseWriter :=
  if 0 < code ∧ w.status ≠ code then
    if w.Written then w else { w with status := code }
  else
    w

/-- gin `(*responseWriter).WriteHeaderNow`: the header goes out with the
current status, unless it already has. -/
def ResponseWriter.WriteHeaderNow (w : ResponseWriter) : ResponseWriter :=
  if w.Written then w else { w with size := 0 }

/-- gin `(*responseWriter).Write`: `WriteHeaderNow`, then the bytes are sent
and counted in `size`. -/
def ResponseWriter.Write (w : ResponseWriter) (data : GoString) : ResponseWriter :=
  { w.WriteHeaderNow with
    body := w.WriteHeaderNow.body ++ data,
    size := w.WriteHeaderNow.size + data.length }

/-- gin `(*responseWriter).reset`, on an underlying writer whose header map is
`header`: default status, nothing written. -/
def ResponseWriter.reset (header : Header) : ResponseWriter :=
  { header := header, status := defaultStatus, size := noWritten, body := [] }

/-- The gin call `c.Status(code)`, which is `c.Writer.WriteHeader(code)`. -/
def Context.Status (c : Context) (code : Int) : Context :=
  { c with Writer := c.Writer.WriteHeader code }

/-- The loop `for headername, values := range h { w.Header()[headername] = values }`. -/
def copyHeaders (w : ResponseWriter) (h : Header) : ResponseWriter :=
  h.entries.foldl (fun w e => { w with header := w.header.insert e.1 e.2 }) w

/-- Go `io.Copy(w, body)`: every chunk read is written to `w`; a read that
yields no byte causes no write. -/
def ioCopy (w : ResponseWriter) (body : List GoString) : ResponseWriter :=
  body.foldl (fun w chunk => if chunk = [] then w else w.Write chunk) w

/-- Go `io.Copy(w, io.TeeReader(body, &buf))`: every chunk read is appended to
`buf` and written to `w`; a read that yields no byte causes no write. -/
def teeCopy (w : ResponseWriter) (buf : GoString) (body : List GoString) :
    ResponseWriter × GoString :=
  body.foldl (fun s chunk => if chunk = [] then s else (s.1.Write chunk, s.2 ++ chunk)) (w, buf)

/-- Go `http.Get(url)`: the call issued. -/
def getCall (url : GoString) : Call := { Method := lit "GET", URL := url }

/-- Go `url.Parse(giphyendpoint)`, the only string the program parses: scheme
`https`, authority `api.giphy.com`, path `/v1/gifs/search`, no query, no
fragment; parsing this constant does not fail. -/
def parseGiphyEndpoint : Except URLError URL :=
  .ok { Scheme := lit "https", Host := lit "api.giphy.com", Path := lit "/v1/gifs/search" }

/-! ## gifly.go: the handlers -/

/-- The `newparams` that `processSearch` builds (lines 127-140). -/
def searchParams (g : Globals) (searchrequest : SearchRequest) : Values :=
  let newparams : Values := []
  let newparams := newparams.Add (lit "q") searchrequest.Query
  let newparams :=
    if searchrequest.APIKey = [] then newparams.Add (lit "api_key") g.defaultapikey
    else newparams.Add (lit "api_key") searchrequest.APIKey
  if searchrequest.Limit = 0 then newparams.Add (lit "limit") (lit "10")
  else newparams.Add (lit "limit") (Itoa searchrequest.Limit)

/-- What one run of `processSearch` did: the context it leaves, the outbound
calls it issued, and its locals `buf` and the result of the JSON decode. -/
structure SearchRun where
  c : Context
  calls : List Call := []
  buf : GoString := []
  decoded : Option (Except GoString GiphySearchResponse) := none

/-- The handler `processSearch`. -/
def processSearch (g : Globals) (o : Outside) (c : Context) : SearchRun :=
  match o.ShouldBind c.Request with
  | some searchrequest =>
    let newparams := searchParams g searchrequest
    match parseGiphyEndpoint with
    | .error _ => { c := c.Status 500 }
    | .ok baseURL =>
      let baseURL := { baseURL with RawQuery := newparams.Encode }
      match o.Get baseURL.String with
      | none => { c := c.Status 404, calls := [getCall baseURL.String] }
      | some res =>
        let w := copyHeaders c.Writer res.Header
        let w := w.WriteHeader res.StatusCode
        let wb := teeCopy w [] res.Body
        { c := { c with Writer := wb.1 },
          calls := [getCall baseURL.String],
          buf := wb.2,
          decoded := some (o.Decode wb.2) }
  | none => { c := c }

/-- The URL `proxyAll` renders: the inbound one after `newURL.Scheme = "https"`
and `newURL.Host = giphyhost`. -/
def proxiedURL (u : URL) : URL :=
  { u with Scheme := lit "https", Host := giphyhost }

/-- What one run of `proxyAll` did: the context it leaves and the outbound
calls it issued. -/
structure ProxyRun where
  c : Context
  calls : List Call := []

/-- The handler `proxyAll`. `newURL` aliases `c.Request.URL`, so the two
assignments also change the request held by the context. -/
def proxyAll (o : Outside) (c : Context) : ProxyRun :=
  let newURL := c.Request.URL
  let newURL := { newURL with Scheme := lit "https" }
  let newURL := { newURL with Host := giphyhost }
  let c := { c with Request := { c.Request with URL := newURL } }
  match o.Get newURL.String with
  | none => { c := c.Status 404, calls := [getCall newURL.String] }
  | some res =>
    let w := copyHeaders c.Writer res.Header
    let w := w.WriteHeader res.StatusCode
    let w := ioCopy w res.Body
    { c := { c with Writer := w }, calls := [getCall newURL.String] }

/-- The writer both handlers leave after a successful upstream call: headers
copied, `WriteHeader`, body copied. -/
def relayed (w : ResponseWriter) (res : Response) : ResponseWriter :=
  ioCopy ((copyHeaders w res.Header).WriteHeader res.StatusCode) res.Body

/-! ## gin: how the router runs the two handlers -/

/-- gin `default404Body`. -/
def default404Body : GoString := lit "404 page not found"

/-- gin `mimePlain`. -/
def mimePlain : List GoString := [lit "text/plain"]

/-- The branch of gin `handleHTTPRequest` for a request that matches the route
of `processSearch`: the writer is reset, the handler chain runs (the two
middleware hand the context on as it is), then `WriteHeaderNow`. `header` is
the header map of the underlying writer when the request arrives. -/
def serveSearch (g : Globals) (o : Outside) (req : Request) (header : Header) : SearchRun :=
  let run := processSearch g o { Request := req, Writer := ResponseWriter.reset header }
  { run with c := { run.c with Writer := run.c.Writer.WriteHeaderNow } }

/-- The end of gin `serveError(c, 404, default404Body)`, after the handler
chain has run: a response already written is left alone; if nothing was
written and the status is still 404, `Content-Type` is set to `text/plain` and
the default page is written; if nothing was written and the status differs,
the header is written. -/
def serveErrorEnd (w : ResponseWriter) : ResponseWriter :=
  if w.Written then
    w
  else if w.status = 404 then
    ResponseWriter.Write
      { w with header := w.header.insert (lit "Content-Type") mimePlain } default404Body
  else
    w.WriteHeaderNow

/-- The branch of gin `handleHTTPRequest` for a request that matches no route,
`serveError(c, 404, default404Body)` with `proxyAll` as the NoRoute handler:
the writer is reset, the status is set to 404, the handler chain runs, then
`serveErrorEnd`. `header` is the header map of the underlying writer when the
request arrives. -/
def serveNoRoute (o : Outside) (req : Request) (header : Header) : ProxyRun :=
  let run := proxyAll o
    { Request := req, Writer := { ResponseWriter.reset header with status := 404 } }
  { run with c := { run.c with Writer := serveErrorEnd run.c.Writer } }

/-! ## gifly.go: startup -/

/-- The process environment: Go `os.LookupEnv` (`none` when the variable is absent). -/
abbrev Environ := GoString → Option GoString

/-- The two handlers of the program. -/
inductive Handler where
  | processSearch
  | proxyAll
  deriving DecidableEq, Repr

/-- A route registered on the gin engine. -/
inductive Route where
  | GET (path : GoString) (h : Handler)
  | NoRoute (h : Handler)
  deriving DecidableEq, Repr

/-- The middleware `main` installs with `r.Use`. -/
inductive Middleware where
  | LoggerWithFormatter
  | Recovery
  deriving DecidableEq, Repr

/-- How `main` ends: the middleware it installed, the globals it set, the
lines it logged, the routes it registered, the status passed to `os.Exit` (if
it was called) and the address passed to `r.Run` (if it was reached). -/
structure Startup where
  middleware : List Middleware := [.LoggerWithFormatter, .Recovery]
  globals : Globals := {}
  logged : List GoString := []
  routes : List Route := []
  exit : Option Int := none
  run : Option GoString := none
  deriving DecidableEq, Repr

/-- The function `main`: the engine is created and the two middleware are
installed before the lookup of `GIPHYAPIKEY`; the routes come after it. -/
def main (env : Environ) : Startup :=
  match env (lit "GIPHYAPIKEY") with
  | none =>
    { logged := [lit "No GIPHYAPIKEY in environment"], exit := some 1 }
  | some key =>
    let g : Globals := { defaultapikey := key }
    let gl : Globals × List GoString :=
      match env (lit "GIPHYKEYPASSTHROUGH") with
      | none => ({ g with passthruapikey := false }, [])
      | some tmppassthrough =>
        match ParseBool tmppassthrough with
        | some b => ({ g with passthruapikey := b }, [])
        | none =>
          ({ g with passthruapikey := false },
            [lit "GIPHYKEYPASSTHROUGH not a boolean value - setting off"])
    let port :=
      match env (lit "PORT") with
      | none => lit "8080"
      | some p => p
    { globals := gl.1,
      logged := gl.2,
      routes := [.GET (lit "/v1/gifs/search") .processSearch, .NoRoute .proxyAll],
      run := some (ch ':' :: port) }

/-! ## Reading a URL string back -/

/-- The query component of a URL string, split off the way `url.Parse` does it:
the fragment is cut at the first `#`, then the query at the first `?`. -/
def URLQuery (url : GoString) : GoString :=
  (cut (ch '?') (cut (ch '#') url).1).2.1

/-- The text of a URL string in front of its query and fragment: scheme,
authority and path. -/
def URLBeforeQuery (url : GoString) : GoString :=
  (cut (ch '?') (cut (ch '#') url).1).1

/-- The parameters a URL string carries: `url.ParseQuery` of its query component. -/
def URLParams (url : GoString) : Values × Option URLError :=
  ParseQuery (URLQuery url)

/-! ## Auxiliary predicates -/

/-- The three shapes of the query escaping of one byte. -/
def escShape (c : Byte) : Bool :=
  (c = ch ' ' ∧ escapeByte c .encodeQueryComponent = [ch '+']) ∨
  (escapeByte c .encodeQueryComponent = [ch '%', upperhex (c.val >>> 4), upperhex (c.val &&& 15)] ∧
    ishex (upperhex (c.val >>> 4)) = true ∧ ishex (upperhex (c.val &&& 15)) = true ∧
    (Fin.ofNat (((unhex (upperhex (c.val >>> 4))).val <<< 4) |||
      (unhex (upperhex (c.val &&& 15))).val) : Byte) = c) ∨
  (escapeByte c .encodeQueryComponent = [c] ∧ c ≠ ch '%' ∧ c ≠ ch '+')

/-- Whether a byte is none of the separators `&`, `=`, `;`, `#`, `?`. -/
def plainByte (x : Byte) : Bool :=
  x ≠ ch '&' ∧ x ≠ ch '=' ∧ x ≠ ch ';' ∧ x ≠ ch '#' ∧ x ≠ ch '?'

/-- The integer a decimal numeral denotes: digits read left to right. -/
def decimalNat (s : GoString) : Nat :=
  s.foldl (fun acc d => 10 * acc + (d.val - 48)) 0

/-- The integer a signed decimal numeral denotes: an optional leading `-`,
then digits. -/
def decimalInt (s : GoString) : Int :=
  match s with
  | [] => 0
  | c :: rest => if c = ch '-' then -(decimalNat rest : Int) else (decimalNat (c :: rest) : Int)

/-! ## Concrete inputs -/

/-- A fresh response writer: no header, status 200, nothing written. -/
def freshWriter : ResponseWriter := ResponseWriter.reset ∅

/-- The bound form of `GET /v1/gifs/search?q=cats&limit=5`. -/
def catsSearch : SearchRequest := { Query := lit "cats", APIKey := [], Limit := 5 }

/-- The context of the inbound request `GET /v1/gifs/search?q=cats&limit=5`. -/
def catsContext : Context :=
  { Request := { Method := lit "GET",
                 URL := { Path := lit "/v1/gifs/search", RawQuery := lit "q=cats&limit=5" } },
    Writer := freshWriter }

/-- An upstream response: status 203, two headers, a two-chunk body that is not JSON. -/
def sampleResponse : Response :=
  { StatusCode := 203,
    Header := (AList.insert (lit "Content-Type") [lit "image/gif"]
      (AList.insert (lit "Set-Cookie") [lit "a=1", lit "b=2"] ∅)),
    Body := [lit "GIF8", lit "9a"] }

/-- An outside world where binding yields `catsSearch`, every `http.Get`
fails, and every decode fails. -/
def offlineWorld : Outside :=
  { ShouldBind := fun _ => some catsSearch,
    Get := fun _ => none,
    Decode := fun _ => .error (lit "invalid character") }

/-- An outside world where binding yields `catsSearch`, every `http.Get`
answers `sampleResponse`, and every decode fails. -/
def onlineWorld : Outside :=
  { ShouldBind := fun _ => some catsSearch,
    Get := fun _ => some sampleResponse,
    Decode := fun _ => .error (lit "invalid character") }

/-- An outside world where binding fails (and the network would answer). -/
def unboundWorld : Outside :=
  { ShouldBind := fun _ => none,
    Get := fun _ => some sampleResponse,
    Decode := fun _ => .error (lit "invalid character") }

/-- The context of the inbound request `POST /v1/stickers/trending?rating=g`,
received over plain HTTP for the host `example.com`. -/
def stickersContext : Context :=
  { Request := { Method := lit "POST",
                 URL := { Scheme := lit "http", Host := lit "example.com",
                          Path := lit "/v1/stickers/trending", RawQuery := lit "rating=g" } },
    Writer := freshWriter }

/-- The context of an inbound request whose target is the rootless URI
`http:foo`, which parses to a URL with an opaque part. -/
def opaqueContext : Context :=
  { Request := { Method := lit "GET", URL := { Scheme := lit "http", Opaque := lit "foo" } },
    Writer := freshWriter }

/-- The inbound request `GET /v1/gifs/search?q=cats&limit=5`. -/
def catsRequest : Request := catsContext.Request

/-- The inbound request `POST /v1/stickers/trending?rating=g`. -/
def stickersRequest : Request := stickersContext.Request

/-- An upstream response whose status line is `HTTP/1.1 000`. -/
def zeroStatusResponse : Response :=
  { StatusCode := 0, Header := ∅, Body := [lit "GIF89a"] }

/-- An outside world where every `http.Get` answers `zeroStatusResponse`. -/
def zeroStatusWorld : Outside :=
  { ShouldBind := fun _ => some catsSearch,
    Get := fun _ => some zeroStatusResponse,
    Decode := fun _ => .error (lit "invalid character") }

/-- An upstream response with status 404, a JSON content type and no body. -/
def emptyNotFoundResponse : Response :=
  { StatusCode := 404,
    Header := AList.insert (lit "Content-Type") [lit "application/json"] ∅,
    Body := [] }

/-- An outside world where every `http.Get` answers `emptyNotFoundResponse`. -/
def notFoundWorld : Outside :=
  { ShouldBind := fun _ => some catsSearch,
    Get := fun _ => some emptyNotFoundResponse,
    Decode := fun _ => .error (lit "invalid character") }

/-- An environment that sets only `GIPHYAPIKEY`, to the empty string. -/
def emptyKeyEnviron : Environ :=
  fun name => if name = lit "GIPHYAPIKEY" then some [] else none

/-! ## Sanity checks of the library model -/

theorem QueryEscape_example : QueryEscape (lit "a b&c=d/~") = lit "a+b%26c%3Dd%2F~" := by decide

theorem QueryUnescape_example :
    QueryUnescape (lit "a+b%26c%3Dd%2F~") = .ok (lit "a b&c=d/~") := by decide

theorem QueryUnescape_malformed :
    QueryUnescape (lit "a%2") = .error (.EscapeError (lit "%2")) := by decide

theorem pieces_example : pieces (lit "a=1&&b=2&") = [lit "a=1", [], lit "b=2"] := by decide

theorem ParseQuery_example : ParseQuery (lit "b=2&a=1&b=+%33") =
    ([(lit "b", [lit "2", lit " 3"]), (lit "a", [lit "1"])], none) := by decide

theorem Encode_sorted_example :
    Values.Encode [(lit "q", [lit "x y"]), (lit "api_key", [lit "K", lit "L"])] =
      lit "api_key=K&api_key=L&q=x+y" := by decide

theorem Itoa_example : Itoa (-25) = lit "-25" ∧ Itoa 0 = lit "0" ∧ Itoa 1234 = lit "1234" := by
  decide

theorem String_example :
    ({ Scheme := lit "http", Host := lit "h", Path := lit "/a b", RawQuery := lit "x=1" } : URL).String
      = lit "http://h/a%20b?x=1" := by decide

theorem String_relative_colon : ({ Path := lit "a:b/c" } : URL).String = lit "./a:b/c" := by decide

/-- Rendering the parsed endpoint gives the constant back. -/
theorem parseGiphyEndpoint_String :
    parseGiphyEndpoint.map URL.String = .ok giphyendpoint := by decide

/-! ## Escaping and unescaping -/

set_option maxRecDepth 100000 in
theorem escShape_all : ∀ c : Byte, escShape c = true := by decide

set_option maxRecDepth 100000 in
theorem escapeByte_plain : ∀ c : Byte, (escapeByte c .encodeQueryComponent).all plainByte = true := by
  decide

theorem unescapeCheck_escapeByte (c : Byte) (t : GoString) :
    unescapeCheck .encodeQueryComponent (escapeByte c .encodeQueryComponent ++ t) =
      unescapeCheck .encodeQueryComponent t := by
  have h := escShape_all c
  simp only [escShape, Bool.decide_or, Bool.or_eq_true, decide_eq_true_eq, Bool.decide_and, Bool.and_eq_true] at h
  have e1 : ch '+' ≠ ch '%' := by decide
  rcases h with ⟨_, h⟩ | ⟨h, h1, h2, _⟩ | ⟨h, h1, h2⟩
  · rw [h, unescapeCheck.eq_def]; simp [e1]
  · rw [h, unescapeCheck.eq_def]; simp [h1, h2]
  · rw [h, unescapeCheck.eq_def]; simp [h1, h2]

theorem unescapeDecode_escapeByte (c : Byte) (t : GoString) :
    unescapeDecode .encodeQueryComponent (escapeByte c .encodeQueryComponent ++ t) =
      c :: unescapeDecode .encodeQueryComponent t := by
  have h := escShape_all c
  simp only [escShape, Bool.decide_or, Bool.or_eq_true, decide_eq_true_eq, Bool.decide_and, Bool.and_eq_true] at h
  have e1 : ch '+' ≠ ch '%' := by decide
  rcases h with ⟨h0, h⟩ | ⟨h, _, _, h3⟩ | ⟨h, h1, h2⟩
  · rw [h, unescapeDecode.eq_def]; simp [e1, h0]
  · rw [h, unescapeDecode.eq_def]; simp [h3]
  · rw [h, unescapeDecode.eq_def]; simp [h1, h2]

theorem unescapeCheck_escape (s t : GoString) :
    unescapeCheck .encodeQueryComponent (escape s .encodeQueryComponent ++ t) =
      unescapeCheck .encodeQueryComponent t := by
  induction s with
  | nil => rfl
  | cons c s ih => rw [escape, List.append_assoc, unescapeCheck_escapeByte, ih]

theorem unescapeDecode_escape (s t : GoString) :
    unescapeDecode .encodeQueryComponent (escape s .encodeQueryComponent ++ t) =
      s ++ unescapeDecode .encodeQueryComponent t := by
  induction s with
  | nil => rfl
  | cons c s ih => rw [escape, List.append_assoc, unescapeDecode_escapeByte, ih]; rfl

/-- Unescaping undoes escaping, for every byte string. -/
theorem QueryUnescape_QueryEscape (s : GoString) : QueryUnescape (QueryEscape s) = .ok s := by
  have h1 := unescapeCheck_escape s []
  have h2 := unescapeDecode_escape s []
  rw [List.append_nil] at h1 h2
  simp only [QueryUnescape, QueryEscape, unescape, h1, h2]
  simp [unescapeCheck, unescapeDecode]

theorem QueryEscape_plain (s : GoString) : ∀ x ∈ QueryEscape s, plainByte x = true := by
  induction s with
  | nil => intro x hx; cases hx
  | cons c s ih =>
    intro x hx
    rw [QueryEscape, escape, List.mem_append] at hx
    rcases hx with hx | hx
    · exact List.all_eq_true.mp (escapeByte_plain c) x hx
    · exact ih x hx

/-! ## Splitting an encoded query -/

theorem cut_append (sep : Byte) (a b : GoString) (h : sep ∉ a) :
    cut sep (a ++ sep :: b) = (a, b, true) := by
  induction a with
  | nil => simp [cut]
  | cons c a ih =>
    have hc : c ≠ sep := fun e => h (by simp [e])
    have ha : sep ∉ a := fun e => h (List.mem_cons_of_mem _ e)
    simp [cut, hc, ih ha]

theorem cut_absent (sep : Byte) (a : GoString) (h : sep ∉ a) : cut sep a = (a, [], false) := by
  induction a with
  | nil => rfl
  | cons c a ih =>
    have hc : c ≠ sep := fun e => h (by simp [e])
    have ha : sep ∉ a := fun e => h (List.mem_cons_of_mem _ e)
    simp [cut, hc, ih ha]

theorem pieces_append (a b : GoString) (h : ch '&' ∉ a) :
    pieces (a ++ ch '&' :: b) = a :: pieces b := by
  induction a with
  | nil => simp [pieces]
  | cons c a ih =>
    have hc : c ≠ ch '&' := fun e => h (by simp [e])
    have ha : ch '&' ∉ a := fun e => h (List.mem_cons_of_mem _ e)
    simp [pieces, hc, ih ha]

theorem pieces_single (a : GoString) (h : ch '&' ∉ a) (hne : a ≠ []) : pieces a = [a] := by
  induction a with
  | nil => exact absurd rfl hne
  | cons c a ih =>
    have hc : c ≠ ch '&' := fun e => h (by simp [e])
    have ha : ch '&' ∉ a := fun e => h (List.mem_cons_of_mem _ e)
    cases a with
    | nil => simp [pieces, hc]
    | cons d a =>
      have hd := ih ha (by simp)
      rw [pieces, if_neg hc, hd]

theorem QueryEscape_not_mem (s : GoString) (x : Byte) (hx : plainByte x = false) :
    x ∉ QueryEscape s := by
  intro h
  rw [QueryEscape_plain s x h] at hx
  exact Bool.noConfusion hx

theorem pair_not_mem (k v : GoString) (x : Byte) (hx : plainByte x = false) (hne : x ≠ ch '=') :
    x ∉ QueryEscape k ++ ch '=' :: QueryEscape v := by
  intro h
  rcases List.mem_append.mp h with h | h
  · exact QueryEscape_not_mem k x hx h
  · rcases List.mem_cons.mp h with h | h
    · exact hne h
    · exact QueryEscape_not_mem v x hx h

/-- One escaped `key=value` piece parses back to the pair it encodes. -/
theorem parsePiece_pair (m : Values × Option URLError) (k v : GoString) :
    parsePiece m (QueryEscape k ++ ch '=' :: QueryEscape v) = (m.1.Add k v, m.2) := by
  have h1 : (QueryEscape k ++ ch '=' :: QueryEscape v).contains (ch ';') = false := by
    have := pair_not_mem k v (ch ';') (by decide) (by decide)
    simpa using this
  have h2 : QueryEscape k ++ ch '=' :: QueryEscape v ≠ [] := by simp
  have h3 := cut_append (ch '=') (QueryEscape k) (QueryEscape v)
    (QueryEscape_not_mem k _ (by decide))
  simp only [parsePiece, h1, h2, h3, QueryUnescape_QueryEscape]
  simp

/-- The encoded parameters of a search parse back to exactly those three. -/
theorem ParseQuery_three (k l q : GoString) :
    ParseQuery (lit "api_key=" ++ (QueryEscape k ++ (lit "&limit=" ++ (QueryEscape l ++
      (lit "&q=" ++ QueryEscape q))))) =
    ([(lit "api_key", [k]), (lit "limit", [l]), (lit "q", [q])], none) := by
  have e : lit "api_key=" ++ (QueryEscape k ++ (lit "&limit=" ++ (QueryEscape l ++
      (lit "&q=" ++ QueryEscape q)))) =
      (QueryEscape (lit "api_key") ++ ch '=' :: QueryEscape k) ++ ch '&' ::
      ((QueryEscape (lit "limit") ++ ch '=' :: QueryEscape l) ++ ch '&' ::
      (QueryEscape (lit "q") ++ ch '=' :: QueryEscape q)) := by
    rfl
  rw [e, ParseQuery, pieces_append _ _ (pair_not_mem _ _ _ (by decide) (by decide)),
    pieces_append _ _ (pair_not_mem _ _ _ (by decide) (by decide)),
    pieces_single _ (pair_not_mem _ _ _ (by decide) (by decide)) (by simp)]
  simp only [List.foldl, parsePiece_pair]
  rfl

/-! ## The outbound call of processSearch -/

/-- The query string `processSearch` encodes: the three pairs in key order. -/
theorem searchParams_Encode (g : Globals) (r : SearchRequest) :
    (searchParams g r).Encode =
      lit "api_key=" ++ (QueryEscape (if r.APIKey = [] then g.defaultapikey else r.APIKey) ++
      (lit "&limit=" ++ (QueryEscape (if r.Limit = 0 then lit "10" else Itoa r.Limit) ++
      (lit "&q=" ++ QueryEscape r.Query)))) := by
  unfold searchParams
  by_cases h1 : r.APIKey = [] <;> by_cases h2 : r.Limit = 0 <;> simp only [h1, h2, if_true, if_false] <;> rfl

theorem searchParams_Encode_ne (g : Globals) (r : SearchRequest) :
    (searchParams g r).Encode ≠ [] := by
  rw [searchParams_Encode]; exact List.cons_ne_nil _ _

/-- Rendering the endpoint with a non-empty query. -/
theorem endpoint_String (u : URL) (q : GoString) (hu : parseGiphyEndpoint = .ok u)
    (hq : q ≠ []) : URL.String { u with RawQuery := q } = giphyendpoint ++ ch '?' :: q := by
  simp only [parseGiphyEndpoint, Except.ok.injEq] at hu
  subst hu
  simp only [URL.String, URL.queryPart, URL.fragmentPart]
  simp only [ne_eq, hq, not_false_eq_true, or_true, if_true, not_true_eq_false, if_false,
    List.append_nil]
  rfl

/-- A bound search issues exactly one call: a GET to the endpoint, `?`, and
the encoded parameters. -/
theorem processSearch_calls (g : Globals) (o : Outside) (c : Context) (r : SearchRequest)
    (h : o.ShouldBind c.Request = some r) :
    (processSearch g o c).calls =
      [getCall (giphyendpoint ++ ch '?' :: (searchParams g r).Encode)] := by
  simp only [processSearch, h]
  cases hp : parseGiphyEndpoint with
  | error e => simp [parseGiphyEndpoint] at hp
  | ok u =>
    simp only [endpoint_String u _ hp (searchParams_Encode_ne g r)]
    cases o.Get (giphyendpoint ++ ch '?' :: (searchParams g r).Encode) <;> rfl

set_option maxRecDepth 100000 in
theorem searchParams_Encode_not_mem (g : Globals) (r : SearchRequest) (x : Byte)
    (hx : plainByte x = false) (h1 : x ≠ ch '=') (h2 : x ≠ ch '&') :
    x ∉ (searchParams g r).Encode := by
  have hl : ∀ y ∈ lit "api_key=" ++ (lit "&limit=" ++ lit "&q="),
      plainByte y = true ∨ y = ch '=' ∨ y = ch '&' := by decide
  have hlit : ∀ s : GoString, (∀ y ∈ s, y ∈ lit "api_key=" ++ (lit "&limit=" ++ lit "&q=")) →
      x ∉ s := by
    intro s hs hmem
    rcases hl x (hs x hmem) with h | h | h
    · rw [h] at hx; exact Bool.noConfusion hx
    · exact h1 h
    · exact h2 h
  intro h
  rw [searchParams_Encode] at h
  simp only [List.mem_append] at h
  rcases h with h | h | h | h | h | h
  · exact hlit _ (fun y hy => List.mem_append_left _ hy) h
  · exact QueryEscape_not_mem _ x hx h
  · exact hlit _ (fun y hy => List.mem_append_right _ (List.mem_append_left _ hy)) h
  · exact QueryEscape_not_mem _ x hx h
  · exact hlit _ (fun y hy => List.mem_append_right _ (List.mem_append_right _ hy)) h
  · exact QueryEscape_not_mem _ x hx h

set_option maxRecDepth 100000 in
/-- Splitting the outbound search URL: nothing is cut off as a fragment, the
text in front of the query is the endpoint, the query is the encoded parameters. -/
theorem search_url_split (g : Globals) (r : SearchRequest) :
    cut (ch '#') (giphyendpoint ++ ch '?' :: (searchParams g r).Encode) =
      (giphyendpoint ++ ch '?' :: (searchParams g r).Encode, [], false) ∧
    URLBeforeQuery (giphyendpoint ++ ch '?' :: (searchParams g r).Encode) = giphyendpoint ∧
    URLQuery (giphyendpoint ++ ch '?' :: (searchParams g r).Encode) =
      (searchParams g r).Encode := by
  have hf : ch '#' ∉ giphyendpoint ++ ch '?' :: (searchParams g r).Encode := by
    intro h
    rcases List.mem_append.mp h with h | h
    · revert h; decide
    · rcases List.mem_cons.mp h with h | h
      · revert h; decide
      · exact searchParams_Encode_not_mem g r _ (by decide) (by decide) (by decide) h
  have hq : ch '?' ∉ giphyendpoint := by decide
  refine ⟨cut_absent _ _ hf, ?_, ?_⟩
  · rw [URLBeforeQuery, cut_absent _ _ hf, cut_append _ _ _ hq]
  · rw [URLQuery, cut_absent _ _ hf, cut_append _ _ _ hq]

/-- The parameters the outbound search URL carries. -/
theorem search_url_params (g : Globals) (r : SearchRequest) :
    URLParams (giphyendpoint ++ ch '?' :: (searchParams g r).Encode) =
      ([(lit "api_key", [if r.APIKey = [] then g.defaultapikey else r.APIKey]),
        (lit "limit", [if r.Limit = 0 then lit "10" else Itoa r.Limit]),
        (lit "q", [r.Query])], none) := by
  rw [URLParams, (search_url_split g r).2.2, searchParams_Encode, ParseQuery_three]

/-! ## Decimal numerals -/

theorem digitChar_value : ∀ k : Fin 10, ((ch (Nat.digitChar k.val)).val - 48) = k.val := by decide

theorem digitChar_mod (n : Nat) : ((ch (Nat.digitChar (n % 10))).val - 48) = n % 10 :=
  digitChar_value ⟨n % 10, Nat.mod_lt _ (by decide)⟩

theorem decimal_toDigitsCore (fuel : Nat) : ∀ (n : Nat) (ds : List Char), n < fuel →
    ((Nat.toDigitsCore 10 fuel n ds).map ch).foldl (fun acc d => 10 * acc + (d.val - 48)) 0 =
      (ds.map ch).foldl (fun acc d => 10 * acc + (d.val - 48)) n := by
  induction fuel with
  | zero => intro n ds h; omega
  | succ fuel ih =>
    intro n ds h
    unfold Nat.toDigitsCore
    by_cases h0 : n / 10 = 0
    · simp only [h0, if_true, List.map_cons, List.foldl_cons, digitChar_mod]
      congr 1
      omega
    · simp only [h0, if_false]
      rw [ih (n / 10) _ (by omega)]
      simp only [List.map_cons, List.foldl_cons, digitChar_mod]
      congr 1
      omega

theorem decimalNat_toDigits (n : Nat) : decimalNat ((Nat.toDigits 10 n).map ch) = n := by
  unfold decimalNat Nat.toDigits
  rw [decimal_toDigitsCore (n + 1) n [] (by omega)]
  rfl

theorem toDigitsCore_head (fuel : Nat) : ∀ (n : Nat) (ds : List Char), n < fuel →
    ∃ k : Fin 10, ∃ tl, Nat.toDigitsCore 10 fuel n ds = Nat.digitChar k.val :: tl := by
  induction fuel with
  | zero => intro n ds h; omega
  | succ fuel ih =>
    intro n ds h
    unfold Nat.toDigitsCore
    by_cases h0 : n / 10 = 0
    · exact ⟨⟨n % 10, Nat.mod_lt _ (by decide)⟩, ds, by simp [h0]⟩
    · simp only [h0, if_false]
      exact ih (n / 10) _ (by omega)

theorem digitChar_not_minus : ∀ k : Fin 10, ch (Nat.digitChar k.val) ≠ ch '-' := by decide

/-- The text `Itoa` produces denotes the integer it was given. -/
theorem decimalInt_Itoa (i : Int) : decimalInt (Itoa i) = i := by
  cases i with
  | ofNat n =>
    obtain ⟨k, tl, hk⟩ := toDigitsCore_head (n + 1) n [] (by omega)
    have hv := decimalNat_toDigits n
    simp only [Itoa]
    unfold Nat.toDigits at hv ⊢
    rw [hk] at hv ⊢
    simp only [List.map_cons, decimalInt, digitChar_not_minus k, if_false] at hv ⊢
    rw [hv]
    rfl
  | negSucc n =>
    simp only [Itoa, decimalInt, if_true, decimalNat_toDigits]
    rfl

theorem digitChar_isDigit : ∀ k : Fin 10,
    ch '0' ≤ ch (Nat.digitChar k.val) ∧ ch (Nat.digitChar k.val) ≤ ch '9' := by decide

theorem toDigitsCore_isDigit (fuel : Nat) : ∀ (n : Nat) (ds : List Char),
    (∀ c ∈ ds, ch '0' ≤ ch c ∧ ch c ≤ ch '9') →
    ∀ c ∈ Nat.toDigitsCore 10 fuel n ds, ch '0' ≤ ch c ∧ ch c ≤ ch '9' := by
  induction fuel with
  | zero => intro n ds h c hc; exact h c hc
  | succ fuel ih =>
    intro n ds h
    have hd : ∀ c ∈ Nat.digitChar (n % 10) :: ds, ch '0' ≤ ch c ∧ ch c ≤ ch '9' := by
      intro c hc
      rcases List.mem_cons.mp hc with hc | hc
      · rw [hc]; exact digitChar_isDigit ⟨n % 10, Nat.mod_lt _ (by decide)⟩
      · exact h c hc
    unfold Nat.toDigitsCore
    by_cases h0 : n / 10 = 0
    · simp only [h0, if_true]; exact hd
    · simp only [h0, if_false]; exact ih _ _ hd

/-- The text `Itoa` produces is made of decimal digits, after `-` at most. -/
theorem Itoa_digits (i : Int) :
    ∀ b ∈ Itoa i, b = ch '-' ∨ (ch '0' ≤ b ∧ b ≤ ch '9') := by
  have hn : ∀ n : Nat, ∀ b ∈ (Nat.toDigits 10 n).map ch, ch '0' ≤ b ∧ b ≤ ch '9' := by
    intro n b hb
    obtain ⟨c, hc, rfl⟩ := List.mem_map.mp hb
    exact toDigitsCore_isDigit (n + 1) n [] (fun c hc => absurd hc (List.not_mem_nil c)) c hc
  intro b hb
  cases i with
  | ofNat n => exact Or.inr (hn n b hb)
  | negSucc n =>
    rcases List.mem_cons.mp hb with hb | hb
    · exact Or.inl hb
    · exact Or.inr (hn (n + 1) b hb)

/-! ## Claims about the search handler -/

/-- C1: for every search request that binds and every configuration, the one
outbound URL of `processSearch` carries exactly one `api_key` value: the bound
`APIKey` when the caller supplied one (the field is non-empty), the configured
`defaultapikey` when the caller omitted it (the field holds its zero value
`""`); and the run is the same for either value of `passthruapikey`. -/
theorem C1_api_key_resolution (g : Globals) (o : Outside) (c : Context) (r : SearchRequest)
    (h : o.ShouldBind c.Request = some r) :
    (r.APIKey ≠ [] →
      (processSearch g o c).calls.map (fun k => (URLParams k.URL).1.lookup (lit "api_key")) =
        [[r.APIKey]]) ∧
    (r.APIKey = [] →
      (processSearch g o c).calls.map (fun k => (URLParams k.URL).1.lookup (lit "api_key")) =
        [[g.defaultapikey]]) ∧
    (∀ b : Bool, processSearch { g with passthruapikey := b } o c = processSearch g o c) := by
  refine ⟨fun hk => ?_, fun hk => ?_, fun b => rfl⟩
  · rw [processSearch_calls g o c r h, List.map_cons, List.map_nil]
    simp only [getCall, search_url_params, if_neg hk]
    rfl
  · rw [processSearch_calls g o c r h, List.map_cons, List.map_nil]
    simp only [getCall, search_url_params, if_pos hk]
    rfl

/-- C1 at a concrete input: key `ABC` configured, passthrough on, the caller
supplies `XYZ`. -/
theorem C1_api_key_resolution_witness :
    (processSearch { defaultapikey := lit "ABC", passthruapikey := true }
        { offlineWorld with ShouldBind := fun _ => some { Query := lit "cats", APIKey := lit "XYZ" } }
        catsContext).calls.map (fun k => (URLParams k.URL).1.lookup (lit "api_key")) =
      [[lit "XYZ"]] :=
  (C1_api_key_resolution { defaultapikey := lit "ABC", passthruapikey := true }
    { offlineWorld with ShouldBind := fun _ => some { Query := lit "cats", APIKey := lit "XYZ" } }
    catsContext { Query := lit "cats", APIKey := lit "XYZ" } rfl).1 (by decide)

/-- C2: for every search request that binds, the one outbound URL of
`processSearch` carries exactly one `limit` value: the string `10` when the
bound `Limit` is 0 (omitted, or supplied as 0), and otherwise `strconv.Itoa`
of the bound integer, which is its signed decimal text (it denotes the same
integer, is made of decimal digits, and is `-` followed by the text of the
absolute value when negative); no bound is applied. -/
theorem C2_limit_resolution (g : Globals) (o : Outside) (c : Context) (r : SearchRequest)
    (h : o.ShouldBind c.Request = some r) :
    (r.Limit = 0 →
      (processSearch g o c).calls.map (fun k => (URLParams k.URL).1.lookup (lit "limit")) =
        [[lit "10"]]) ∧
    (r.Limit ≠ 0 →
      (processSearch g o c).calls.map (fun k => (URLParams k.URL).1.lookup (lit "limit")) =
        [[Itoa r.Limit]]) ∧
    decimalInt (Itoa r.Limit) = r.Limit ∧
    (∀ b ∈ Itoa r.Limit, b = ch '-' ∨ (ch '0' ≤ b ∧ b ≤ ch '9')) ∧
    (r.Limit < 0 → Itoa r.Limit = ch '-' :: Itoa (-r.Limit)) := by
  refine ⟨fun hk => ?_, fun hk => ?_, decimalInt_Itoa _, Itoa_digits _, fun hk => ?_⟩
  · rw [processSearch_calls g o c r h, List.map_cons, List.map_nil]
    simp only [getCall, search_url_params, if_pos hk]
    rfl
  · rw [processSearch_calls g o c r h, List.map_cons, List.map_nil]
    simp only [getCall, search_url_params, if_neg hk]
    rfl
  · cases hl : r.Limit with
    | ofNat n => rw [hl] at hk; exact absurd hk (by simp)
    | negSucc n => rfl

/-- C2 at a concrete input: the caller supplies `limit=-7`. -/
theorem C2_limit_resolution_witness :
    (processSearch {}
        { offlineWorld with ShouldBind := fun _ => some { Query := lit "cats", Limit := -7 } }
        catsContext).calls.map (fun k => (URLParams k.URL).1.lookup (lit "limit")) =
      [[lit "-7"]] :=
  (C2_limit_resolution {}
    { offlineWorld with ShouldBind := fun _ => some { Query := lit "cats", Limit := -7 } }
    catsContext { Query := lit "cats", Limit := -7 } rfl).2.1 (by decide)

/-- C3 as stated fails: for `q=cats`, `limit=5`, no caller key and default key
`ABC`, the URL passed to the outbound GET is not the string with the
parameters in the order `q`, `api_key`, `limit`. -/
theorem C3_stated_order_fails :
    (processSearch { defaultapikey := lit "ABC" } offlineWorld catsContext).calls ≠
      [getCall (lit "https://api.giphy.com/v1/gifs/search?q=cats&api_key=ABC&limit=5")] := by
  decide

/-- C3 amended: for the search request with `q = "cats"`, `limit = 5`, no
caller key and configured default key `ABC`, the URL `processSearch` passes to
the outbound GET is exactly
`https://api.giphy.com/v1/gifs/search?api_key=ABC&limit=5&q=cats`
(`Values.Encode` writes the parameters sorted by key). -/
theorem C3_cats_url (g : Globals) (o : Outside) (c : Context)
    (hg : g.defaultapikey = lit "ABC")
    (h : o.ShouldBind c.Request = some { Query := lit "cats", APIKey := [], Limit := 5 }) :
    (processSearch g o c).calls =
      [getCall (lit "https://api.giphy.com/v1/gifs/search?api_key=ABC&limit=5&q=cats")] := by
  rw [processSearch_calls g o c _ h]
  have e : (searchParams g { Query := lit "cats", APIKey := [], Limit := 5 }).Encode =
      lit "api_key=ABC&limit=5&q=cats" := by
    simp only [searchParams, hg]
    decide
  rw [e]
  rfl

/-- C3 amended, at the scenario of the specification. -/
theorem C3_cats_url_witness :
    (processSearch { defaultapikey := lit "ABC" } offlineWorld catsContext).calls =
      [getCall (lit "https://api.giphy.com/v1/gifs/search?api_key=ABC&limit=5&q=cats")] :=
  C3_cats_url { defaultapikey := lit "ABC" } offlineWorld catsContext rfl rfl

/-- C9: for every inbound search request whose parameters fail to bind,
`processSearch` issues no outbound call and leaves the context as it found it:
no status code, no header and no body byte is written. -/
theorem C9_bind_failure_is_silent (g : Globals) (o : Outside) (c : Context)
    (h : o.ShouldBind c.Request = none) :
    (processSearch g o c).calls = [] ∧
    (processSearch g o c).c = c ∧
    (processSearch g o c).c.Writer.status = c.Writer.status ∧
    (processSearch g o c).c.Writer.header = c.Writer.header ∧
    (processSearch g o c).c.Writer.body = c.Writer.body := by
  simp only [processSearch, h, and_self]

/-- C9 at a concrete input: the binder fails while the network would answer. -/
theorem C9_bind_failure_is_silent_witness :
    (processSearch { defaultapikey := lit "ABC" } unboundWorld catsContext).calls = [] ∧
    (processSearch { defaultapikey := lit "ABC" } unboundWorld catsContext).c = catsContext :=
  ⟨(C9_bind_failure_is_silent { defaultapikey := lit "ABC" } unboundWorld catsContext rfl).1,
   (C9_bind_failure_is_silent { defaultapikey := lit "ABC" } unboundWorld catsContext rfl).2.1⟩

/-- C10: for every query string, api key and limit of a bound search, the one
outbound call of `processSearch` is to a URL string that is
`https://api.giphy.com/v1/gifs/search`, then `?`, then a query with no fragment
cut off; that query parses without error to exactly the three parameters
`api_key`, `limit` and `q`, each with exactly one value, and the value of `q`
is the caller's `Query` byte for byte. -/
theorem C10_outbound_query_wellformed (g : Globals) (o : Outside) (c : Context)
    (r : SearchRequest) (h : o.ShouldBind c.Request = some r) :
    (processSearch g o c).calls.map (fun k => (URLBeforeQuery k.URL, (cut (ch '#') k.URL).2)) =
      [(lit "https://api.giphy.com/v1/gifs/search", [], false)] ∧
    (processSearch g o c).calls.map (fun k => URLParams k.URL) =
      [([(lit "api_key", [if r.APIKey = [] then g.defaultapikey else r.APIKey]),
         (lit "limit", [if r.Limit = 0 then lit "10" else Itoa r.Limit]),
         (lit "q", [r.Query])], none)] ∧
    (processSearch g o c).calls.map (fun k => (URLParams k.URL).1.Get (lit "q")) = [r.Query] := by
  rw [processSearch_calls g o c r h]
  refine ⟨?_, ?_, ?_⟩
  · simp only [List.map_cons, List.map_nil, getCall, (search_url_split g r).1,
      (search_url_split g r).2.1]
    rfl
  · simp only [List.map_cons, List.map_nil, getCall, search_url_params]
  · simp only [List.map_cons, List.map_nil, getCall, search_url_params]
    rfl

/-- C10 at a concrete input: a query made of separators. -/
theorem C10_outbound_query_wellformed_witness :
    (processSearch { defaultapikey := lit "ABC" }
        { offlineWorld with ShouldBind := fun _ => some { Query := lit "a&api_key=X#y?%+ z" } }
        catsContext).calls.map (fun k => (URLParams k.URL).1.Get (lit "q")) =
      [lit "a&api_key=X#y?%+ z"] :=
  (C10_outbound_query_wellformed { defaultapikey := lit "ABC" }
    { offlineWorld with ShouldBind := fun _ => some { Query := lit "a&api_key=X#y?%+ z" } }
    catsContext { Query := lit "a&api_key=X#y?%+ z" } rfl).2.2

/-! ## Claims about the generic proxy -/

/-- The one call of `proxyAll`: a GET to the rendering of the inbound URL with
scheme and host overridden. -/
theorem proxyAll_calls (o : Outside) (c : Context) :
    (proxyAll o c).calls = [getCall (proxiedURL c.Request.URL).String] := by
  simp only [proxyAll]
  cases o.Get (URL.String { c.Request.URL with Scheme := lit "https", Host := giphyhost }) <;> rfl

/-- Rendering of a URL without opaque part once `proxyAll` has overridden its
scheme and host. -/
theorem proxied_String (u : URL) (h : u.Opaque = []) :
    (proxiedURL u).String =
      lit "https://" ++
      (match u.User with
        | some ui => ui.String ++ [ch '@']
        | none => []) ++
      lit "api.giphy.com" ++
      (if u.EscapedPath ≠ [] ∧ u.EscapedPath.head? ≠ some (ch '/') then [ch '/'] else []) ++
      u.EscapedPath ++ u.queryPart ++ u.fragmentPart := by
  have hs : URL.schemePart { u with Scheme := lit "https", Host := giphyhost } = lit "https:" := by
    rfl
  have hh : escape giphyhost .encodeHost = lit "api.giphy.com" := by decide
  have hne : giphyhost ≠ [] := by decide
  have hsn : lit "https" ≠ [] := by decide
  have ha : URL.authorityPart { u with Scheme := lit "https", Host := giphyhost } =
      lit "//" ++ (match u.User with
        | some ui => ui.String ++ [ch '@']
        | none => []) ++ lit "api.giphy.com" := by
    simp only [URL.authorityPart, hne, hsn, ne_eq, not_false_eq_true, true_or, if_true,
      false_and, and_false, if_false, hh]
  have hp : ∀ buf : GoString, buf ≠ [] →
      URL.pathPart { u with Scheme := lit "https", Host := giphyhost } buf =
      (if u.EscapedPath ≠ [] ∧ u.EscapedPath.head? ≠ some (ch '/') then [ch '/'] else []) ++
        u.EscapedPath := by
    intro buf hb
    have e : URL.EscapedPath { u with Scheme := lit "https", Host := giphyhost } =
        u.EscapedPath := rfl
    simp only [URL.pathPart, e, hne, hb, ne_eq, not_false_eq_true, and_true, false_and, if_false]
  have hb : lit "https:" ++ (lit "//" ++ (match u.User with
        | some ui => ui.String ++ [ch '@']
        | none => []) ++ lit "api.giphy.com") ≠ [] := by
    simp [lit]
  have hq : URL.queryPart { u with Scheme := lit "https", Host := giphyhost } = u.queryPart := rfl
  have hf : URL.fragmentPart { u with Scheme := lit "https", Host := giphyhost } =
      u.fragmentPart := rfl
  have ho : ¬ (({ u with Scheme := lit "https", Host := giphyhost } : URL).Opaque ≠ []) := by
    simp [h]
  rw [proxiedURL, URL.String, if_neg ho, hs, ha, hp _ hb, hq, hf]
  simp only [List.append_assoc]
  rfl

/-- C4 as stated fails: for the inbound request target `http:foo`, whose URL
has an opaque part, the URL of the outbound GET is `https:foo`; it does not
begin with `https://api.giphy.com`, so it names no host. -/
theorem C4_opaque_target_has_no_host :
    (proxyAll offlineWorld opaqueContext).calls = [getCall (lit "https:foo")] ∧
    (proxyAll offlineWorld opaqueContext).calls.map
      (fun k => (lit "https://api.giphy.com").isPrefixOf k.URL) = [false] := by
  decide

/-- C4 amended: for every inbound request handled by `proxyAll` whose URL has
an empty opaque part, whatever its method, inbound scheme and inbound host,
the one outbound call is a GET whose URL string is `https://`, the inbound
userinfo and `@` if there is one, `api.giphy.com`, the inbound path in escaped
form (after a `/` when it is non-empty and does not start with one), `?` and
the inbound query string unchanged when there is one, and `#` and the escaped
fragment when the inbound URL has one. The URL held by the context afterwards
is the inbound one with only scheme and host replaced. -/
theorem C4_proxy_outbound_url (o : Outside) (c : Context) (h : c.Request.URL.Opaque = []) :
    (proxyAll o c).calls =
      [{ Method := lit "GET",
         URL := lit "https://" ++
          (match c.Request.URL.User with
            | some ui => ui.String ++ [ch '@']
            | none => []) ++
          lit "api.giphy.com" ++
          (if c.Request.URL.EscapedPath ≠ [] ∧ c.Request.URL.EscapedPath.head? ≠ some (ch '/')
            then [ch '/'] else []) ++
          c.Request.URL.EscapedPath ++
          (if c.Request.URL.ForceQuery ∨ c.Request.URL.RawQuery ≠ []
            then ch '?' :: c.Request.URL.RawQuery else []) ++
          c.Request.URL.fragmentPart }] ∧
    (proxyAll o c).c.Request.URL =
      { c.Request.URL with Scheme := lit "https", Host := lit "api.giphy.com" } ∧
    (∀ (m s host : GoString),
      (proxyAll o { c with Request :=
        { Method := m, URL := { c.Request.URL with Scheme := s, Host := host } } }).calls =
      (proxyAll o c).calls) := by
  refine ⟨?_, ?_, fun m s host => ?_⟩
  · rw [proxyAll_calls, proxied_String _ h]
    rfl
  · simp only [proxyAll]
    cases o.Get (URL.String { c.Request.URL with Scheme := lit "https", Host := giphyhost }) <;>
      rfl
  · rw [proxyAll_calls, proxyAll_calls]
    rfl

/-- C4 amended, at the scenario of the specification: an inbound
`POST /v1/stickers/trending?rating=g` received over plain HTTP for another host. -/
theorem C4_proxy_outbound_url_witness :
    (proxyAll offlineWorld stickersContext).calls =
      [{ Method := lit "GET",
         URL := lit "https://api.giphy.com/v1/stickers/trending?rating=g" }] :=
  (C4_proxy_outbound_url offlineWorld stickersContext rfl).1.trans (by decide)

/-! ## The claim about startup -/

/-- C8: for every environment, `main` calls `os.Exit(1)` exactly when
`GIPHYAPIKEY` is absent, and then no route has been registered and the server
is not run; when the variable is present with any value, the empty string
included, `main` does not exit, registers both routes, runs the server, and
`defaultapikey` is exactly that value, which is the `api_key` that
`processSearch` sends for a request without a key of its own. -/
theorem C8_startup_requires_key (env : Environ) :
    ((main env).exit = some 1 ↔ env (lit "GIPHYAPIKEY") = none) ∧
    ((main env).exit = some 1 → (main env).routes = [] ∧ (main env).run = none) ∧
    (∀ v : GoString, env (lit "GIPHYAPIKEY") = some v →
      (main env).exit = none ∧
      (main env).globals.defaultapikey = v ∧
      (main env).routes =
        [.GET (lit "/v1/gifs/search") .processSearch, .NoRoute .proxyAll] ∧
      (main env).run ≠ none ∧
      (∀ (o : Outside) (c : Context) (r : SearchRequest),
        o.ShouldBind c.Request = some r → r.APIKey = [] →
        (processSearch (main env).globals o c).calls.map
          (fun k => (URLParams k.URL).1.lookup (lit "api_key")) = [[v]])) := by
  have hkey : ∀ v : GoString, env (lit "GIPHYAPIKEY") = some v →
      (main env).exit = none ∧ (main env).globals.defaultapikey = v ∧
      (main env).routes = [.GET (lit "/v1/gifs/search") .processSearch, .NoRoute .proxyAll] ∧
      (main env).run ≠ none := by
    intro v hv
    refine ⟨by simp only [main, hv], ?_, by simp only [main, hv], by simp [main, hv]⟩
    cases hp : env (lit "GIPHYKEYPASSTHROUGH") with
    | none => simp only [main, hv, hp]
    | some t => cases hb : ParseBool t <;> simp only [main, hv, hp, hb]
  refine ⟨?_, ?_, ?_⟩
  · cases hv : env (lit "GIPHYAPIKEY") with
    | none => simp [main, hv]
    | some v => simp [(hkey v hv).1]
  · cases hv : env (lit "GIPHYAPIKEY") with
    | none => simp [main, hv]
    | some v => simp [(hkey v hv).1]
  · intro v hv
    refine ⟨(hkey v hv).1, (hkey v hv).2.1, (hkey v hv).2.2.1, (hkey v hv).2.2.2, ?_⟩
    intro o c r hb hk
    rw [processSearch_calls _ o c r hb, List.map_cons, List.map_nil]
    simp only [getCall, search_url_params, if_pos hk, (hkey v hv).2.1]
    rfl

/-- C8 at a concrete input: `GIPHYAPIKEY` is present and empty. -/
theorem C8_startup_requires_key_witness :
    (main emptyKeyEnviron).exit = none ∧ (main emptyKeyEnviron).globals.defaultapikey = [] :=
  ⟨((C8_startup_requires_key emptyKeyEnviron).2.2 [] rfl).1,
   ((C8_startup_requires_key emptyKeyEnviron).2.2 [] rfl).2.1⟩

/-! ## The relay -/

theorem copy_fold_lookup (l : List (Sigma fun _ : GoString => List GoString)) :
    l.NodupKeys → ∀ (w : ResponseWriter) (name : GoString),
    (l.foldl (fun w e => { w with header := w.header.insert e.1 e.2 }) w).header.lookup name =
      match l.dlookup name with
      | some vs => some vs
      | none => w.header.lookup name := by
  induction l with
  | nil => intro _ w name; rfl
  | cons e l ih =>
    intro hn w name
    obtain ⟨he, hl⟩ := List.nodupKeys_cons.mp hn
    rw [List.foldl_cons, ih hl]
    by_cases hk : name = e.1
    · subst hk
      have h1 : List.dlookup e.1 l = none := List.dlookup_eq_none.mpr he
      have h2 : List.dlookup e.1 (e :: l) = some e.2 := List.dlookup_cons_eq l e.1 e.2
      rw [h1, h2]
      exact AList.lookup_insert _
    · rw [List.dlookup_cons_ne l e hk]
      cases List.dlookup name l with
      | some vs => rfl
      | none => exact AList.lookup_insert_ne hk

theorem copy_fold_rest (l : List (Sigma fun _ : GoString => List GoString)) :
    ∀ w : ResponseWriter,
    (l.foldl (fun w e => { w with header := w.header.insert e.1 e.2 }) w).status = w.status ∧
    (l.foldl (fun w e => { w with header := w.header.insert e.1 e.2 }) w).body = w.body ∧
    (l.foldl (fun w e => { w with header := w.header.insert e.1 e.2 }) w).size = w.size := by
  induction l with
  | nil => intro w; exact ⟨rfl, rfl, rfl⟩
  | cons e l ih => intro w; rw [List.foldl_cons]; exact ih _

/-- After the header loop, a name the upstream response has maps to the
upstream values, and any other name keeps what the caller's map held. -/
theorem copyHeaders_lookup (w : ResponseWriter) (h : Header) (name : GoString) :
    (copyHeaders w h).header.lookup name =
      match h.lookup name with
      | some vs => some vs
      | none => w.header.lookup name :=
  copy_fold_lookup h.entries h.nodupKeys w name

theorem copyHeaders_status (w : ResponseWriter) (h : Header) :
    (copyHeaders w h).status = w.status := (copy_fold_rest h.entries w).1

theorem copyHeaders_body (w : ResponseWriter) (h : Header) :
    (copyHeaders w h).body = w.body := (copy_fold_rest h.entries w).2.1

theorem copyHeaders_size (w : ResponseWriter) (h : Header) :
    (copyHeaders w h).size = w.size := (copy_fold_rest h.entries w).2.2

/-- What `WriteHeader` leaves alone, and when it sets the status. -/
theorem WriteHeader_facts (w : ResponseWriter) (code : Int) :
    (w.WriteHeader code).header = w.header ∧ (w.WriteHeader code).body = w.body ∧
    (w.WriteHeader code).size = w.size ∧
    (w.size = noWritten → 0 < code → (w.WriteHeader code).status = code) ∧
    (¬ 0 < code → (w.WriteHeader code).status = w.status) := by
  unfold ResponseWriter.WriteHeader ResponseWriter.Written
  by_cases h1 : 0 < code ∧ w.status ≠ code
  · by_cases h2 : w.size = noWritten
    · simp [h1, h2]
    · simp [h1, h2]
  · rw [if_neg h1]
    refine ⟨rfl, rfl, rfl, fun _ hc => ?_, fun _ => rfl⟩
    by_contra hne
    exact h1 ⟨hc, fun e => hne e⟩

/-- What one `Write` does to a writer whose size is `noWritten` or not negative. -/
theorem Write_facts (w : ResponseWriter) (data : GoString) (hs : -1 ≤ w.size)
    (hd : data ≠ []) :
    (w.Write data).header = w.header ∧ (w.Write data).status = w.status ∧
    (w.Write data).body = w.body ++ data ∧ 0 ≤ (w.Write data).size := by
  have hl : 0 < (data.length : Int) := by
    have := List.length_pos.mpr hd
    omega
  unfold ResponseWriter.Write ResponseWriter.WriteHeaderNow ResponseWriter.Written noWritten
  by_cases h : w.size = -1
  · simp [h]
  · simp [h]; omega

/-- Go `io.Copy` leaves header and status alone, appends every byte, and has
written the header exactly when the writer had or a byte was copied. -/
theorem ioCopy_facts (body : List GoString) : ∀ w : ResponseWriter, -1 ≤ w.size →
    (ioCopy w body).header = w.header ∧ (ioCopy w body).status = w.status ∧
    (ioCopy w body).body = w.body ++ body.flatten ∧ -1 ≤ (ioCopy w body).size ∧
    ((ioCopy w body).size = -1 ↔ w.size = -1 ∧ body.flatten = []) := by
  induction body with
  | nil => intro w hs; simp [ioCopy, hs]
  | cons x xs ih =>
    intro w hs
    by_cases hx : x = []
    · have := ih w hs
      simp only [ioCopy, List.foldl_cons, hx, if_true, List.flatten_cons, List.nil_append]
        at this ⊢
      exact this
    · obtain ⟨f1, f2, f3, f4⟩ := Write_facts w x hs hx
      have := ih (w.Write x) (by omega)
      simp only [ioCopy, List.foldl_cons, hx, if_false, List.flatten_cons] at this ⊢
      obtain ⟨g1, g2, g3, g4, g5⟩ := this
      refine ⟨g1.trans f1, g2.trans f2, ?_, g4, ?_⟩
      · rw [g3, f3, List.append_assoc]
      · constructor
        · intro h; have := (g5.mp h).1; omega
        · intro h; exact absurd (List.append_eq_nil.mp h.2).1 hx

/-- The body after `io.Copy`, for any writer. -/
theorem ioCopy_body (body : List GoString) : ∀ w : ResponseWriter,
    (ioCopy w body).body = w.body ++ body.flatten := by
  induction body with
  | nil => intro w; simp [ioCopy]
  | cons x xs ih =>
    intro w
    by_cases hx : x = []
    · have := ih w
      simp only [ioCopy, List.foldl_cons, hx, if_true, List.flatten_cons, List.nil_append]
        at this ⊢
      exact this
    · have := ih (w.Write x)
      simp only [ioCopy, List.foldl_cons, hx, if_false, List.flatten_cons] at this ⊢
      rw [this]
      unfold ResponseWriter.Write ResponseWriter.WriteHeaderNow
      by_cases hw : w.Written = true <;> simp [hw, List.append_assoc]

/-- Copying through a tee writes what a plain copy writes, and buffers it. -/
theorem teeCopy_eq (body : List GoString) : ∀ (w : ResponseWriter) (buf : GoString),
    teeCopy w buf body = (ioCopy w body, buf ++ body.flatten) := by
  induction body with
  | nil => intro w buf; simp [teeCopy, ioCopy]
  | cons x xs ih =>
    intro w buf
    by_cases hx : x = []
    · have := ih w buf
      simp only [teeCopy, ioCopy, List.foldl_cons, hx, if_true, List.flatten_cons,
        List.nil_append] at this ⊢
      exact this
    · have := ih (w.Write x) (buf ++ x)
      simp only [teeCopy, ioCopy, List.foldl_cons, hx, if_false, List.flatten_cons] at this ⊢
      rw [this, List.append_assoc]

/-- The writer after a relay: the header loop decides the header map, the
copy decides the body; starting from a writer with nothing written, a positive
upstream code becomes the status, and the header has been written exactly when
the upstream body has a byte. -/
theorem relayed_facts (w : ResponseWriter) (res : Response) :
    (relayed w res).header = (copyHeaders w res.Header).header ∧
    (relayed w res).body = w.body ++ res.Body.flatten ∧
    (w.size = noWritten →
      (0 < res.StatusCode → (relayed w res).status = res.StatusCode) ∧
      (¬ 0 < res.StatusCode → (relayed w res).status = w.status) ∧
      ((relayed w res).Written = false ↔ res.Body.flatten = [])) := by
  have hw := WriteHeader_facts (copyHeaders w res.Header) res.StatusCode
  rw [copyHeaders_size, copyHeaders_body, copyHeaders_status] at hw
  obtain ⟨h1, h2, h3, h4, h5⟩ := hw
  refine ⟨?_, ?_, fun hs => ?_⟩
  · have hb := ioCopy_body res.Body ((copyHeaders w res.Header).WriteHeader res.StatusCode)
    have : ∀ (body : List GoString) (v : ResponseWriter), (ioCopy v body).header = v.header := by
      intro body
      induction body with
      | nil => intro v; rfl
      | cons x xs ih =>
        intro v
        by_cases hx : x = []
        · simpa [ioCopy, hx] using ih v
        · have := ih (v.Write x)
          simp only [ioCopy, List.foldl_cons, hx, if_false] at this ⊢
          rw [this]
          unfold ResponseWriter.Write ResponseWriter.WriteHeaderNow
          by_cases hv : v.Written = true <;> simp [hv]
    rw [relayed, this, h1]
  · rw [relayed, ioCopy_body, h2]
  · have hs1 : -1 ≤ ((copyHeaders w res.Header).WriteHeader res.StatusCode).size := by
      rw [h3, hs]; decide
    obtain ⟨_, g2, _, _, g5⟩ := ioCopy_facts res.Body _ hs1
    refine ⟨fun hc => ?_, fun hc => ?_, ?_⟩
    · rw [relayed, g2]; exact h4 hs hc
    · rw [relayed, g2]; exact h5 hc
    · rw [relayed]
      unfold ResponseWriter.Written noWritten
      rw [h3, hs] at g5
      simp only [noWritten, true_and] at g5
      simp [g5]

theorem processSearch_success (g : Globals) (o : Outside) (c : Context) (res : Response)
    (h : (processSearch g o c).calls.map (fun k => o.Get k.URL) = [some res]) :
    (processSearch g o c).c.Writer = relayed c.Writer res ∧
    (processSearch g o c).c.Request = c.Request ∧
    (processSearch g o c).buf = res.Body.flatten ∧
    (processSearch g o c).decoded = some (o.Decode res.Body.flatten) := by
  cases hb : o.ShouldBind c.Request with
  | none =>
    simp only [processSearch, hb] at h
    exact absurd h (by simp)
  | some r =>
    rw [processSearch_calls g o c r hb] at h
    simp only [List.map_cons, List.map_nil, getCall, List.cons.injEq, and_true] at h
    simp only [processSearch, hb]
    cases hp : parseGiphyEndpoint with
    | error e => simp [parseGiphyEndpoint] at hp
    | ok u =>
      simp only [endpoint_String u _ hp (searchParams_Encode_ne g r), h, teeCopy_eq]
      simp [relayed]

theorem proxyAll_success (o : Outside) (c : Context) (res : Response)
    (h : (proxyAll o c).calls.map (fun k => o.Get k.URL) = [some res]) :
    (proxyAll o c).c.Writer = relayed c.Writer res := by
  rw [proxyAll_calls] at h
  simp only [List.map_cons, List.map_nil, getCall, List.cons.injEq, and_true, proxiedURL] at h
  simp only [proxyAll, h]
  rfl

/-- A bound search whose outbound GET returns an error only calls `c.Status(404)`. -/
theorem processSearch_error (g : Globals) (o : Outside) (c : Context) (r : SearchRequest)
    (h : o.ShouldBind c.Request = some r)
    (he : ∀ k ∈ (processSearch g o c).calls, o.Get k.URL = none) :
    (processSearch g o c).c = c.Status 404 := by
  have hg : o.Get (giphyendpoint ++ ch '?' :: (searchParams g r).Encode) = none :=
    he (getCall (giphyendpoint ++ ch '?' :: (searchParams g r).Encode))
      (by rw [processSearch_calls g o c r h]; exact List.mem_singleton.mpr rfl)
  simp only [processSearch, h]
  cases hp : parseGiphyEndpoint with
  | error e => simp [parseGiphyEndpoint] at hp
  | ok u => simp only [endpoint_String u _ hp (searchParams_Encode_ne g r), hg]

/-- A proxied request whose outbound GET returns an error only calls `c.Status(404)`. -/
theorem proxyAll_error (o : Outside) (c : Context)
    (he : ∀ k ∈ (proxyAll o c).calls, o.Get k.URL = none) :
    (proxyAll o c).c.Writer = c.Writer.WriteHeader 404 := by
  have hg : o.Get (proxiedURL c.Request.URL).String = none :=
    he (getCall (proxiedURL c.Request.URL).String)
      (by rw [proxyAll_calls]; exact List.mem_singleton.mpr rfl)
  simp only [proxiedURL] at hg
  simp only [proxyAll, hg]
  rfl

theorem WriteHeaderNow_facts (w : ResponseWriter) :
    w.WriteHeaderNow.header = w.header ∧ w.WriteHeaderNow.status = w.status ∧
    w.WriteHeaderNow.body = w.body := by
  unfold ResponseWriter.WriteHeaderNow
  by_cases h : w.Written = true <;> simp [h]

/-- What the end of `serveError` leaves, by whether the handler wrote the
header and which status it left. -/
theorem serveErrorEnd_facts (w : ResponseWriter) :
    (serveErrorEnd w).status = w.status ∧
    (w.Written = true → serveErrorEnd w = w) ∧
    (w.status ≠ 404 → (serveErrorEnd w).header = w.header ∧ (serveErrorEnd w).body = w.body) ∧
    (w.Written = false → w.status = 404 →
      (serveErrorEnd w).header = w.header.insert (lit "Content-Type") mimePlain ∧
      (serveErrorEnd w).body = w.body ++ default404Body) := by
  unfold serveErrorEnd
  by_cases h1 : w.Written = true
  · simp [h1]
  · have h1f : w.Written = false := by simpa using h1
    have hsz : w.size = noWritten := by simpa [ResponseWriter.Written] using h1f
    by_cases h2 : w.status = 404
    · simp [ResponseWriter.Written, hsz, h2, ResponseWriter.Write, ResponseWriter.WriteHeaderNow]
    · simp [h1f, h2, (WriteHeaderNow_facts w).1, (WriteHeaderNow_facts w).2.1,
        (WriteHeaderNow_facts w).2.2]

/-- C5 as stated fails: an upstream response with status code 0 leaves the
caller's status at gin's default 200, in `processSearch` alone and as gin runs
it; and for a request served by `proxyAll`, an upstream 404 without body has
its `Content-Type` replaced by `text/plain` when gin sends its default page. -/
theorem C5_status_zero_and_default_page :
    (processSearch {} zeroStatusWorld catsContext).calls.map
      (fun k => zeroStatusWorld.Get k.URL) = [some zeroStatusResponse] ∧
    zeroStatusResponse.StatusCode = 0 ∧
    (processSearch {} zeroStatusWorld catsContext).c.Writer.status = 200 ∧
    (serveSearch {} zeroStatusWorld catsRequest ∅).c.Writer.status = 200 ∧
    (serveNoRoute notFoundWorld stickersRequest ∅).calls.map
      (fun k => notFoundWorld.Get k.URL) = [some emptyNotFoundResponse] ∧
    emptyNotFoundResponse.Header.lookup (lit "Content-Type") = some [lit "application/json"] ∧
    (serveNoRoute notFoundWorld stickersRequest ∅).c.Writer.header.lookup (lit "Content-Type") =
      some [lit "text/plain"] := by
  refine ⟨rfl, rfl, ?_, ?_, rfl, ?_, ?_⟩ <;> decide

/-- C5 amended: for every successful upstream response whose status code is
positive and every initial state of the caller's response headers, as gin runs
the two handlers (the writer reset, nothing written yet): the status code of
the caller's response equals the upstream status code; for `processSearch`
every header name present on the upstream response maps on the caller's
response to exactly the upstream list of values (replacing what the caller's
map held) and every other name keeps its earlier values; for `proxyAll` the
same holds when the handler returns, and in the response the caller gets
unless the upstream status is 404 and the upstream body is empty, in which
case gin's default page sets `Content-Type` to `text/plain` and every other
upstream name still maps to the upstream values. -/
theorem C5_relay_headers_and_positive_status :
    (∀ (g : Globals) (o : Outside) (req : Request) (hdr : Header) (res : Response),
      (serveSearch g o req hdr).calls.map (fun k => o.Get k.URL) = [some res] →
      0 < res.StatusCode →
      (∀ (name : GoString) (vs : List GoString), res.Header.lookup name = some vs →
        (serveSearch g o req hdr).c.Writer.header.lookup name = some vs) ∧
      (∀ name : GoString, res.Header.lookup name = none →
        (serveSearch g o req hdr).c.Writer.header.lookup name = hdr.lookup name) ∧
      (serveSearch g o req hdr).c.Writer.status = res.StatusCode) ∧
    (∀ (o : Outside) (c : Context) (res : Response),
      (proxyAll o c).calls.map (fun k => o.Get k.URL) = [some res] →
      c.Writer.Written = false → 0 < res.StatusCode →
      (∀ (name : GoString) (vs : List GoString), res.Header.lookup name = some vs →
        (proxyAll o c).c.Writer.header.lookup name = some vs) ∧
      (∀ name : GoString, res.Header.lookup name = none →
        (proxyAll o c).c.Writer.header.lookup name = c.Writer.header.lookup name) ∧
      (proxyAll o c).c.Writer.status = res.StatusCode) ∧
    (∀ (o : Outside) (req : Request) (hdr : Header) (res : Response),
      (serveNoRoute o req hdr).calls.map (fun k => o.Get k.URL) = [some res] →
      0 < res.StatusCode →
      (serveNoRoute o req hdr).c.Writer.status = res.StatusCode ∧
      (¬ (res.StatusCode = 404 ∧ res.Body.flatten = []) →
        (∀ (name : GoString) (vs : List GoString), res.Header.lookup name = some vs →
          (serveNoRoute o req hdr).c.Writer.header.lookup name = some vs) ∧
        (∀ name : GoString, res.Header.lookup name = none →
          (serveNoRoute o req hdr).c.Writer.header.lookup name = hdr.lookup name)) ∧
      (res.StatusCode = 404 → res.Body.flatten = [] →
        (∀ (name : GoString) (vs : List GoString), name ≠ lit "Content-Type" →
          res.Header.lookup name = some vs →
          (serveNoRoute o req hdr).c.Writer.header.lookup name = some vs) ∧
        (serveNoRoute o req hdr).c.Writer.header.lookup (lit "Content-Type") =
          some [lit "text/plain"])) := by
  have key : ∀ (w : ResponseWriter) (res : Response),
      (∀ (name : GoString) (vs : List GoString), res.Header.lookup name = some vs →
        (relayed w res).header.lookup name = some vs) ∧
      (∀ name : GoString, res.Header.lookup name = none →
        (relayed w res).header.lookup name = w.header.lookup name) := by
    intro w res
    rw [(relayed_facts w res).1]
    refine ⟨fun name vs hv => ?_, fun name hv => ?_⟩
    · simp only [copyHeaders_lookup, hv]
    · simp only [copyHeaders_lookup, hv]
  refine ⟨?_, ?_, ?_⟩
  · intro g o req hdr res h hc
    have hs := (processSearch_success g o
      { Request := req, Writer := ResponseWriter.reset hdr } res h).1
    have hw : (serveSearch g o req hdr).c.Writer = (relayed (ResponseWriter.reset hdr) res).WriteHeaderNow := by
      rw [← hs]; rfl
    obtain ⟨w1, w2, _⟩ := WriteHeaderNow_facts (relayed (ResponseWriter.reset hdr) res)
    rw [hw, w1, w2]
    exact ⟨(key _ res).1, (key _ res).2,
      ((relayed_facts (ResponseWriter.reset hdr) res).2.2 rfl).1 hc⟩
  · intro o c res h hw hc
    have hsz : c.Writer.size = noWritten := by
      simpa [ResponseWriter.Written] using hw
    rw [proxyAll_success o c res h]
    exact ⟨(key _ res).1, (key _ res).2, ((relayed_facts c.Writer res).2.2 hsz).1 hc⟩
  · intro o req hdr res h hc
    have hs := proxyAll_success o
      { Request := req, Writer := { ResponseWriter.reset hdr with status := 404 } } res h
    have hw : (serveNoRoute o req hdr).c.Writer =
        serveErrorEnd (relayed { ResponseWriter.reset hdr with status := 404 } res) := by
      rw [← hs]; rfl
    obtain ⟨r1, r2, r3⟩ := relayed_facts { ResponseWriter.reset hdr with status := 404 } res
    obtain ⟨r4, _, r6⟩ := r3 rfl
    obtain ⟨e1, e2, e3, e4⟩ :=
      serveErrorEnd_facts (relayed { ResponseWriter.reset hdr with status := 404 } res)
    rw [r4 hc] at e1 e3 e4
    rw [hw]
    refine ⟨e1, fun hn => ?_, fun h4 hb => ?_⟩
    · have hh : (serveErrorEnd (relayed { ResponseWriter.reset hdr with status := 404 } res)).header
          = (relayed { ResponseWriter.reset hdr with status := 404 } res).header := by
        by_cases h4 : res.StatusCode = 404
        · have hb : res.Body.flatten ≠ [] := fun hb => hn ⟨h4, hb⟩
          have hwr : (relayed { ResponseWriter.reset hdr with status := 404 } res).Written = true := by
            by_contra hf
            exact hb (r6.mp (by simpa using hf))
          rw [e2 hwr]
        · exact (e3 h4).1
      rw [hh]
      exact key _ res
    · obtain ⟨e5, _⟩ := e4 (r6.mpr hb) h4
      rw [e5]
      refine ⟨fun name vs hne hv => ?_, ?_⟩
      · rw [AList.lookup_insert_ne hne]
        exact (key _ res).1 name vs hv
      · exact AList.lookup_insert _

/-- C5 amended, at concrete inputs: the caller's map already holds a
`Content-Type` and the upstream response, status 203, brings its own. -/
theorem C5_relay_headers_and_positive_status_witness :
    (serveSearch {} onlineWorld catsRequest
        (AList.insert (lit "Content-Type") [lit "text/plain"] ∅)
      ).c.Writer.header.lookup (lit "Content-Type") = some [lit "image/gif"] ∧
    (serveSearch {} onlineWorld catsRequest
        (AList.insert (lit "Content-Type") [lit "text/plain"] ∅)).c.Writer.status = 203 ∧
    (serveNoRoute onlineWorld stickersRequest ∅).c.Writer.status = 203 :=
  ⟨(C5_relay_headers_and_positive_status.1 {} onlineWorld catsRequest
      (AList.insert (lit "Content-Type") [lit "text/plain"] ∅) sampleResponse rfl
      (by decide)).1 (lit "Content-Type") [lit "image/gif"] (by decide),
   (C5_relay_headers_and_positive_status.1 {} onlineWorld catsRequest
      (AList.insert (lit "Content-Type") [lit "text/plain"] ∅) sampleResponse rfl
      (by decide)).2.2,
   (C5_relay_headers_and_positive_status.2.2 onlineWorld stickersRequest ∅ sampleResponse rfl
      (by decide)).1⟩

/-- C6: for every successful upstream response, the bytes `processSearch`
adds to the caller's body are exactly the upstream body bytes, whatever the
JSON decoder makes of them; `proxyAll` leaves the very same writer for the same
upstream response; and replacing the decoder by any other changes neither the
context nor the calls of `processSearch`, only its local decode result. -/
theorem C6_body_relayed_verbatim :
    (∀ (g : Globals) (o : Outside) (c : Context) (res : Response),
      (processSearch g o c).calls.map (fun k => o.Get k.URL) = [some res] →
      (processSearch g o c).c.Writer.body = c.Writer.body ++ res.Body.flatten ∧
      (c.Writer.body = [] → (processSearch g o c).c.Writer.body = res.Body.flatten) ∧
      (processSearch g o c).decoded = some (o.Decode res.Body.flatten) ∧
      (∀ (o2 : Outside) (c2 : Context),
        (proxyAll o2 c2).calls.map (fun k => o2.Get k.URL) = [some res] →
        c2.Writer = c.Writer →
        (proxyAll o2 c2).c.Writer = (processSearch g o c).c.Writer)) ∧
    (∀ (g : Globals) (o : Outside) (c : Context)
      (d : GoString → Except GoString GiphySearchResponse),
      (processSearch g { o with Decode := d } c).c = (processSearch g o c).c ∧
      (processSearch g { o with Decode := d } c).calls = (processSearch g o c).calls) := by
  constructor
  · intro g o c res h
    have hs := processSearch_success g o c res h
    refine ⟨?_, ?_, hs.2.2.2, ?_⟩
    · rw [hs.1]; exact (relayed_facts c.Writer res).2.1
    · intro hb; rw [hs.1, (relayed_facts c.Writer res).2.1, hb]; rfl
    · intro o2 c2 h2 hw
      rw [hs.1, proxyAll_success o2 c2 res h2, hw]
  · intro g o c d
    simp only [processSearch]
    cases o.ShouldBind c.Request with
    | none => exact ⟨rfl, rfl⟩
    | some r =>
      cases parseGiphyEndpoint with
      | error e => exact ⟨rfl, rfl⟩
      | ok u =>
        simp only []
        cases o.Get (URL.String { u with RawQuery := (searchParams g r).Encode }) <;>
          exact ⟨rfl, rfl⟩

/-- C6 at a concrete input: an upstream body that is not JSON, in two chunks. -/
theorem C6_body_relayed_verbatim_witness :
    (processSearch {} onlineWorld catsContext).c.Writer.body = lit "GIF89a" ∧
    (processSearch {} onlineWorld catsContext).decoded =
      some (.error (lit "invalid character")) ∧
    (proxyAll onlineWorld catsContext).c.Writer =
      (processSearch {} onlineWorld catsContext).c.Writer :=
  ⟨((C6_body_relayed_verbatim.1 {} onlineWorld catsContext sampleResponse rfl).2.1 rfl).trans
      (by decide),
   (C6_body_relayed_verbatim.1 {} onlineWorld catsContext sampleResponse rfl).2.2.1,
   (C6_body_relayed_verbatim.1 {} onlineWorld catsContext sampleResponse rfl).2.2.2
      onlineWorld catsContext rfl rfl⟩

/-- C7 as stated fails for `proxyAll`: when the outbound GET returns an error
the handler sets 404 and writes nothing, and gin, which runs `proxyAll` as its
NoRoute handler, then sends its default page, so the body the caller gets is
`404 page not found`, not empty. -/
theorem C7_proxy_error_body_not_empty :
    (serveNoRoute offlineWorld stickersRequest ∅).calls.map
      (fun k => offlineWorld.Get k.URL) = [none] ∧
    (serveNoRoute offlineWorld stickersRequest ∅).c.Writer.status = 404 ∧
    (serveNoRoute offlineWorld stickersRequest ∅).c.Writer.body = lit "404 page not found" ∧
    (serveNoRoute offlineWorld stickersRequest ∅).c.Writer.body ≠ [] := by
  refine ⟨rfl, ?_, ?_, ?_⟩ <;> decide

/-- C7 amended: for every request to `processSearch` whose parameters bind,
if the outbound GET returns an error then the response status is 404, the body
written to the caller is empty and the caller's header map is as it was, no
upstream header copied. For every request to `proxyAll`, if the outbound GET
returns an error then the handler writes no byte and copies no header and
leaves status 404 on a writer not yet written to, and the response the caller
gets has status 404, gin's default page `404 page not found` as its body and
the header map as it was except `Content-Type`, set to `text/plain`. -/
theorem C7_upstream_error_responses :
    (∀ (g : Globals) (o : Outside) (req : Request) (hdr : Header) (r : SearchRequest),
      o.ShouldBind req = some r →
      (∀ k ∈ (serveSearch g o req hdr).calls, o.Get k.URL = none) →
      (serveSearch g o req hdr).c.Writer.status = 404 ∧
      (serveSearch g o req hdr).c.Writer.body = [] ∧
      (serveSearch g o req hdr).c.Writer.header = hdr) ∧
    (∀ (o : Outside) (c : Context),
      (∀ k ∈ (proxyAll o c).calls, o.Get k.URL = none) →
      (proxyAll o c).c.Writer.body = c.Writer.body ∧
      (proxyAll o c).c.Writer.header = c.Writer.header ∧
      (c.Writer.Written = false → (proxyAll o c).c.Writer.status = 404)) ∧
    (∀ (o : Outside) (req : Request) (hdr : Header),
      (∀ k ∈ (serveNoRoute o req hdr).calls, o.Get k.URL = none) →
      (serveNoRoute o req hdr).c.Writer.status = 404 ∧
      (serveNoRoute o req hdr).c.Writer.body = lit "404 page not found" ∧
      (serveNoRoute o req hdr).c.Writer.header =
        hdr.insert (lit "Content-Type") [lit "text/plain"]) := by
  refine ⟨?_, ?_, ?_⟩
  · intro g o req hdr r hb he
    have hc := processSearch_error g o
      { Request := req, Writer := ResponseWriter.reset hdr } r hb he
    have hw : (serveSearch g o req hdr).c.Writer =
        ((ResponseWriter.reset hdr).WriteHeader 404).WriteHeaderNow := by
      show (processSearch g o _).c.Writer.WriteHeaderNow = _
      rw [hc]; rfl
    obtain ⟨w1, w2, w3⟩ := WriteHeaderNow_facts ((ResponseWriter.reset hdr).WriteHeader 404)
    obtain ⟨f1, f2, _, f4, _⟩ := WriteHeader_facts (ResponseWriter.reset hdr) 404
    rw [hw, w1, w2, w3, f1, f2, f4 rfl (by decide)]
    exact ⟨rfl, rfl, rfl⟩
  · intro o c he
    obtain ⟨f1, f2, _, f4, _⟩ := WriteHeader_facts c.Writer 404
    rw [proxyAll_error o c he, f1, f2]
    refine ⟨rfl, rfl, fun hw => f4 ?_ (by decide)⟩
    simpa [ResponseWriter.Written] using hw
  · intro o req hdr he
    have hc := proxyAll_error o
      { Request := req, Writer := { ResponseWriter.reset hdr with status := 404 } } he
    have hw : (serveNoRoute o req hdr).c.Writer =
        serveErrorEnd { ResponseWriter.reset hdr with status := 404 } := by
      show serveErrorEnd (proxyAll o _).c.Writer = _
      rw [hc]; rfl
    obtain ⟨e1, _, _, e4⟩ := serveErrorEnd_facts { ResponseWriter.reset hdr with status := 404 }
    obtain ⟨e5, e6⟩ := e4 rfl rfl
    rw [hw, e1, e5, e6]
    exact ⟨rfl, rfl, rfl⟩

/-- C7 amended, at concrete inputs: both handlers, as gin runs them, with a
network that refuses every call. -/
theorem C7_upstream_error_responses_witness :
    (serveSearch { defaultapikey := lit "ABC" } offlineWorld catsRequest ∅).c.Writer.status = 404 ∧
    (serveSearch { defaultapikey := lit "ABC" } offlineWorld catsRequest ∅).c.Writer.body = [] ∧
    (proxyAll offlineWorld stickersContext).c.Writer.body = [] ∧
    (serveNoRoute offlineWorld stickersRequest ∅).c.Writer.body = lit "404 page not found" :=
  ⟨(C7_upstream_error_responses.1 { defaultapikey := lit "ABC" } offlineWorld catsRequest ∅
      catsSearch rfl (fun _ _ => rfl)).1,
   (C7_upstream_error_responses.1 { defaultapikey := lit "ABC" } offlineWorld catsRequest ∅
      catsSearch rfl (fun _ _ => rfl)).2.1,
   (C7_upstream_error_responses.2.1 offlineWorld stickersContext (fun _ _ => rfl)).1,
   (C7_upstream_error_responses.2.2 offlineWorld stickersRequest ∅ (fun _ _ => rfl)).2.1⟩

end Gifly
